import Mathlib

/-!
Verification of the eodag plugin manager (`eodag/plugins/manager.py`).

The manager state is embedded shallowly: Python dicts become insertion-ordered
association lists, plugin object identity becomes a natural-number id into an
instance heap, and `None` cache placeholders become `Option Nat` values.
Python's stable `list.sort(key=attrgetter("priority"), reverse=True)` is
modelled by a stable descending insertion sort, which computes the same result
as any stable descending sort.
-/

set_option linter.unusedVariables false

namespace Eodag

/-- A capability-level (plugin) configuration: the concrete implementation type
name plus the fields the manager propagates onto it before construction
(`priority`, `products`). -/
structure PluginConfig where
  type : String
  priority : Int
  products : List String
deriving DecidableEq, Repr

/-- A provider-level configuration record (`eodag.config.ProviderConfig`):
name, optional priority (resolved to 0 at index-build time), declared product
types, optional group, and the four optional capability sub-configurations. -/
structure ProviderConfig where
  name : String
  priority : Option Int
  products : List String
  group : Option String
  search : Option PluginConfig
  api : Option PluginConfig
  download : Option PluginConfig
  auth : Option PluginConfig
deriving DecidableEq, Repr

/-- A constructed plugin instance: the provider it was registered for, the
plugin configuration it was constructed with, and its mutable `priority`
attribute (the one field `set_priority` updates in place). -/
structure PluginInstance where
  provider : String
  conf : PluginConfig
  priority : Int
deriving DecidableEq, Repr

/-- Errors surfaced by the manager, mirroring the Python exceptions:
`KeyError` from a bare dict lookup, `UnsupportedProvider` (the flag records
whether a product type was supplied, which selects the message),
`MisconfiguredError`, the plugin-class lookup failure, and the
`AttributeError` from assigning an attribute on `None`. -/
inductive MgrError where
  | keyError (k : String)
  | unsupportedProvider (withProductType : Bool)
  | misconfigured (providerName : String)
  | unknownPluginType (topic typeName : String)
  | attributeError
deriving DecidableEq, Repr

/-- Lookup in an insertion-ordered association list (Python dict read). -/
def dget {κ α : Type} [DecidableEq κ] : List (κ × α) → κ → Option α
  | [], _ => none
  | e :: rest, k => if e.1 = k then some e.2 else dget rest k

/-- Write to an insertion-ordered association list: update in place if the key
is present, append otherwise (Python dict write). -/
def dset {κ α : Type} [DecidableEq κ] : List (κ × α) → κ → α → List (κ × α)
  | [], k, v => [(k, v)]
  | e :: rest, k, v => if e.1 = k then (k, v) :: rest else e :: dset rest k v

/-- Remove a key from an association list (Python `dict.pop`). -/
def dpop {κ α : Type} [DecidableEq κ] : List (κ × α) → κ → List (κ × α)
  | [], _ => []
  | e :: rest, k => if e.1 = k then rest else e :: dpop rest k

/-- Update the value at a key in place, if present. -/
def dmodify {κ α : Type} [DecidableEq κ] : List (κ × α) → κ → (α → α) → List (κ × α)
  | [], _, _ => []
  | e :: rest, k, f => (if e.1 = k then (e.1, f e.2) else e) :: dmodify rest k f

/-- The provider configuration store (`self.providers_config`). -/
abbrev Store := List (String × ProviderConfig)

/-- The product-type index (`self.product_type_to_provider_config_map`); its
entries hold provider names, standing for references to the shared
`ProviderConfig` objects in the store. -/
abbrev Index := List (String × List String)

/-- The plugin cache (`self._built_plugins_cache`), keyed by
(provider name, topic class name); `none` is the `None` placeholder inserted
by `setdefault`, `some id` a built instance. -/
abbrev Cache := List ((String × String) × Option Nat)

/-- The whole mutable state of a `PluginManager`, together with the ambient
plugin class registry (pairs of topic class name and plugin type name) and a
heap of constructed plugin instances addressed by identity. -/
structure MgrState where
  providersConfig : Store
  productTypeMap : Index
  cache : Cache
  instances : List (Nat × PluginInstance)
  nextId : Nat
  registry : List (String × String)
deriving DecidableEq, Repr

/-- The provider priority as read by `attrgetter("priority")` after
normalization (an unset priority has been replaced by 0 at build time). -/
def provPriority (c : ProviderConfig) : Int := c.priority.getD 0

/-- Priority of the provider named `n` as stored in `store`; index entries are
names standing for shared references, so the sort key reads through here. -/
def storePriority (store : Store) (n : String) : Int :=
  match dget store n with
  | some c => provPriority c
  | none => 0

/-- Insert one element into a descending-priority-sorted list, after every
element of priority at least as high: the placement a stable descending sort
gives to the earliest remaining element. -/
def insertDesc (prio : String → Int) (x : String) : List String → List String
  | [] => [x]
  | y :: ys => if prio x ≥ prio y then x :: y :: ys else y :: insertDesc prio x ys

/-- Stable descending sort by `prio`, modelling Python's stable
`sort(key=attrgetter("priority"), reverse=True)`. -/
def sortDesc (prio : String → Int) (l : List String) : List String :=
  l.foldr (insertDesc prio) []

/-- The distinguished generic fallback product type
(`eodag.utils.GENERIC_PRODUCT_TYPE`). -/
def GENERIC_PRODUCT_TYPE : String := "GENERIC_PRODUCT_TYPE"

/-- Inner loop of `build_product_type_to_provider_config_map`: append the
provider to each of its product types' index entries, re-sorting the entry
after each append (lines 158-165). -/
def insertProducts (store : Store) (n : String) : List String → Index → Index
  | [], idx => idx
  | pt :: rest, idx =>
      insertProducts store n rest
        (dset idx pt (sortDesc (storePriority store) (((dget idx pt).getD []) ++ [n])))

/-- Body of `build_product_type_to_provider_config_map`'s provider loop
(lines 144-165): iterate over a snapshot of the store's keys; drop providers
with no products (recording them as skipped, mirroring the log line), default
an unset priority to 0 in place, and insert the survivor into the index. -/
def buildGo : Store → List String → Index → List String → Store × Index × List String
  | store, [], idx, skipped => (store, idx, skipped)
  | store, n :: rest, idx, skipped =>
    match dget store n with
    | none => buildGo store rest idx skipped
    | some cfg =>
      if cfg.products = [] then
        buildGo (dpop store n) rest idx (skipped ++ [n])
      else
        let cfg' := if cfg.priority = none then { cfg with priority := some 0 } else cfg
        let store' := dset store n cfg'
        buildGo store' rest (insertProducts store' n cfg'.products idx) skipped

/-- `build_product_type_to_provider_config_map` (lines 141-165): rebuild the
index from scratch, returning the mutated store, the new index, and the
skipped provider names (the log records). -/
def buildProductTypeMap (store : Store) : Store × Index × List String :=
  buildGo store (store.map Prod.fst) [] []

/-- `rebuild` (lines 131-139): optionally replace the store, rebuild the
index, and reset the plugin cache to a fresh empty dict. The instance heap and
the id counter persist: previously constructed objects keep their identity. -/
def rebuild (st : MgrState) (newConfig : Option Store) : MgrState :=
  let store0 := newConfig.getD st.providersConfig
  let r := buildProductTypeMap store0
  { st with providersConfig := r.1, productTypeMap := r.2.1, cache := [] }

/-- `_build_plugin` (lines 320-353): `setdefault` a `None` placeholder under
the cache key, return the cached instance if one exists, otherwise resolve the
plugin class by type name in the topic's registry (raising when unknown, with
the placeholder left in the cache), construct a fresh instance and store it. -/
def buildPlugin (st : MgrState) (provider : String) (conf : PluginConfig)
    (topic : String) : MgrState × Except MgrError Nat :=
  let stc : MgrState :=
    match dget st.cache (provider, topic) with
    | some _ => st
    | none => { st with cache := dset st.cache (provider, topic) none }
  match dget stc.cache (provider, topic) with
  | some (some id) => (stc, Except.ok id)
  | _ =>
    if (topic, conf.type) ∈ st.registry then
      ({ stc with
          cache := dset stc.cache (provider, topic)
            (some st.nextId),
          instances := dset stc.instances st.nextId
            { provider := provider, conf := conf, priority := conf.priority },
          nextId := st.nextId + 1 }, Except.ok st.nextId)
    else (stc, Except.error (MgrError.unknownPluginType topic conf.type))

/-- The sub-configuration effectively used to build a search or api plugin:
the provider's `products` and `priority` are copied onto it first
(lines 189-190 and 193-194). -/
def searchEffConf (c : ProviderConfig) (s : PluginConfig) : PluginConfig :=
  { s with products := c.products, priority := provPriority c }

/-- The inner `get_plugin` closure of `get_search_plugins` (lines 186-200):
propagate `products` and `priority` onto the `search` (else `api`)
sub-configuration, mutate it in the shared store, and build through the cache;
raise `MisconfiguredError` when neither capability is configured. -/
def getPluginForConfig (st : MgrState) (n : String) : MgrState × Except MgrError Nat :=
  match dget st.providersConfig n with
  | none => (st, Except.error (MgrError.keyError n))
  | some c =>
    match c.search with
    | some s =>
      let s' := searchEffConf c s
      let st1 := { st with
        providersConfig := dset st.providersConfig n { c with search := some s' } }
      buildPlugin st1 c.name s' "Search"
    | none =>
      match c.api with
      | some a =>
        let a' := searchEffConf c a
        let st1 := { st with
          providersConfig := dset st.providersConfig n { c with api := some a' } }
        buildPlugin st1 c.name a' "Api"
      | none => (st, Except.error (MgrError.misconfigured c.name))

/-- The yield loop of `get_search_plugins` (lines 225-226), run to exhaustion:
resolve each selected config in order, collecting (provider name, instance id)
pairs, stopping at the first raised error. -/
def runSearch : MgrState → List String → MgrState × Except MgrError (List (String × Nat))
  | st, [] => (st, Except.ok [])
  | st, n :: rest =>
    match getPluginForConfig st n with
    | (st1, Except.error e) => (st1, Except.error e)
    | (st1, Except.ok id) =>
      match runSearch st1 rest with
      | (st2, Except.error e) => (st2, Except.error e)
      | (st2, Except.ok l) => (st2, Except.ok ((n, id) :: l))

/-- The provider / provider-group filter of `get_search_plugins`
(lines 213-216). -/
def filterByProvider (st : MgrState) (p : String) (configs : List String) :
    List String :=
  configs.filter (fun n =>
    match dget st.providersConfig n with
    | some c => decide (c.group = some p ∨ c.name = p)
    | none => false)

/-- Candidate selection of `get_search_plugins` (lines 202-223): index lookup
with generic fallback for a given product type (a bare dict access on the
generic key), the full store otherwise, then the provider filter and the two
`UnsupportedProvider` checks. -/
def selectSearchConfigs (st : MgrState) (productType provider : Option String) :
    Except MgrError (List String) :=
  let base : Except MgrError (List String) :=
    match productType with
    | some pt =>
      match dget st.productTypeMap pt with
      | some (c :: cs) => Except.ok (c :: cs)
      | _ =>
        match dget st.productTypeMap GENERIC_PRODUCT_TYPE with
        | some l => Except.ok l
        | none => Except.error (MgrError.keyError GENERIC_PRODUCT_TYPE)
    | none => Except.ok (st.providersConfig.map Prod.fst)
  match base with
  | Except.error e => Except.error e
  | Except.ok configs0 =>
    let configs := match provider with
      | some p => filterByProvider st p configs0
      | none => configs0
    if configs = [] then
      Except.error (MgrError.unsupportedProvider productType.isSome)
    else Except.ok configs

/-- `get_search_plugins` (lines 167-226), with the generator run to
exhaustion: select the candidate configs, sort them by descending priority
(line 225), and resolve each in order. -/
def get_search_plugins (st : MgrState) (productType provider : Option String) :
    MgrState × Except MgrError (List (String × Nat)) :=
  match selectSearchConfigs st productType provider with
  | Except.error e => (st, Except.error e)
  | Except.ok configs => runSearch st (sortDesc (storePriority st.providersConfig) configs)

/-- `get_download_plugin` (lines 228-252): direct store lookup by the
product's provider, then `download` (priority propagated) else `api`
(priority and products propagated) else `MisconfiguredError`. -/
def get_download_plugin (st : MgrState) (productProvider : String) :
    MgrState × Except MgrError Nat :=
  match dget st.providersConfig productProvider with
  | none => (st, Except.error (MgrError.keyError productProvider))
  | some c =>
    match c.download with
    | some d =>
      let d' := { d with priority := provPriority c }
      let st1 := { st with
        providersConfig := dset st.providersConfig productProvider
          { c with download := some d' } }
      buildPlugin st1 productProvider d' "Download"
    | none =>
      match c.api with
      | some a =>
        let a' := { a with products := c.products, priority := provPriority c }
        let st1 := { st with
          providersConfig := dset st.providersConfig productProvider
            { c with api := some a' } }
        buildPlugin st1 productProvider a' "Api"
      | none => (st, Except.error (MgrError.misconfigured c.name))

/-- `get_auth_plugin` (lines 254-274): direct store lookup; `none` when no
`auth` capability is configured, otherwise propagate the provider priority
onto the auth sub-configuration and resolve through the cache. -/
def get_auth_plugin (st : MgrState) (provider : String) :
    MgrState × Except MgrError (Option Nat) :=
  match dget st.providersConfig provider with
  | none => (st, Except.error (MgrError.keyError provider))
  | some c =>
    match c.auth with
    | none => (st, Except.ok none)
    | some a =>
      let a' := { a with priority := provPriority c }
      let st1 := { st with
        providersConfig := dset st.providersConfig provider { c with auth := some a' } }
      match buildPlugin st1 provider a' "Authentication" with
      | (st2, Except.ok id) => (st2, Except.ok (some id))
      | (st2, Except.error e) => (st2, Except.error e)

/-- The cache-instances pass of `set_priority` (lines 316-318): iterate over
the cache keys; for every key of the given provider, assign `priority` on the
cached value, which raises `AttributeError` when the value is the `None`
placeholder of a failed build. -/
def setPriorityCacheLoop (provider : String) (priority : Int) :
    MgrState → Cache → MgrState × Except MgrError Unit
  | st, [] => (st, Except.ok ())
  | st, e :: rest =>
    if e.1.1 = provider then
      match e.2 with
      | none => (st, Except.error MgrError.attributeError)
      | some id =>
        setPriorityCacheLoop provider priority
          { st with
            instances := dmodify st.instances id (fun i => { i with priority := priority }) }
          rest
    else setPriorityCacheLoop provider priority st rest

/-- `set_priority` (lines 296-318): update the priority of the (shared)
config objects of the given provider reachable from the index, re-sort every
index entry, then update the `priority` attribute of every cached plugin value
of that provider. -/
def set_priority (st : MgrState) (provider : String) (priority : Int) :
    MgrState × Except MgrError Unit :=
  let inIdx := st.productTypeMap.any (fun e => decide (provider ∈ e.2))
  let store' := if inIdx then
      dmodify st.providersConfig provider (fun c => { c with priority := some priority })
    else st.providersConfig
  let idx' := st.productTypeMap.map (fun e => (e.1, sortDesc (storePriority store') e.2))
  let st1 := { st with providersConfig := store', productTypeMap := idx' }
  setPriorityCacheLoop provider priority st1 st1.cache

/-- Manager construction (`__init__`, line 129, with the external entry-point
discovery and provider-config merging treated as having already produced the
store): record the registry and run the initial `rebuild`. -/
def initManager (registry : List (String × String)) (providersConfig : Store) :
    MgrState :=
  rebuild
    { providersConfig := providersConfig, productTypeMap := [], cache := [],
      instances := [], nextId := 0, registry := registry } none

/-- Normalization of one provider record as performed at index-build time:
an unset priority becomes 0. -/
def normProvider (c : ProviderConfig) : ProviderConfig :=
  if c.priority = none then { c with priority := some 0 } else c

/-- The store as left behind by an index build: providers without products
removed, unset priorities defaulted to 0, order preserved. -/
def normalizeStore (s : Store) : Store :=
  (s.filter (fun e => decide (e.2.products ≠ []))).map (fun e => (e.1, normProvider e.2))

/-- The providers an index build records as skipped, in store order. -/
def skippedOf (s : Store) : List String :=
  (s.filter (fun e => decide (e.2.products = []))).map Prod.fst

/-- The providers declaring a given product type, in store (registration)
order. -/
def providersFor (s : Store) (pt : String) : List String :=
  (s.filter (fun e => decide (pt ∈ e.2.products))).map Prod.fst

/-- How one build pass transforms a single index entry: absent stays absent
when no provider declares the product type; otherwise the declaring providers
are appended and the entry is stably re-sorted by descending priority. -/
def mergeEntry (prio : String → Int) (e : Option (List String)) (l : List String) :
    Option (List String) :=
  match e, l with
  | none, [] => none
  | _, _ => some (sortDesc prio ((e.getD []) ++ l))

/-- First index of an element in a list (length of the list when absent). -/
def firstIdx : List String → String → Nat
  | [], _ => 0
  | y :: ys, a => if y = a then 0 else firstIdx ys a + 1

section DictLemmas

variable {κ α : Type} [DecidableEq κ]

theorem dget_dset_self (d : List (κ × α)) (k : κ) (v : α) :
    dget (dset d k v) k = some v := by
  induction d with
  | nil => simp [dget, dset]
  | cons e rest ih =>
    by_cases h : e.1 = k
    · simp [dget, dset, h]
    · simp [dget, dset, h, ih]

theorem dget_dset_ne (d : List (κ × α)) (k k' : κ) (v : α) (h : k' ≠ k) :
    dget (dset d k v) k' = dget d k' := by
  induction d with
  | nil => simp [dget, dset, Ne.symm h]
  | cons e rest ih =>
    by_cases he : e.1 = k
    · subst he
      simp [dget, dset, Ne.symm h]
    · by_cases he' : e.1 = k'
      · simp [dget, dset, he, he', h]
      · simp [dget, dset, he, he', ih]

theorem dget_dmodify_self (d : List (κ × α)) (k : κ) (f : α → α) :
    dget (dmodify d k f) k = (dget d k).map f := by
  induction d with
  | nil => simp [dget, dmodify]
  | cons e rest ih =>
    by_cases h : e.1 = k
    · simp [dget, dmodify, h]
    · simp [dget, dmodify, h, ih]

theorem dget_dmodify_ne (d : List (κ × α)) (k k' : κ) (f : α → α) (h : k' ≠ k) :
    dget (dmodify d k f) k' = dget d k' := by
  induction d with
  | nil => simp [dget, dmodify]
  | cons e rest ih =>
    by_cases he : e.1 = k
    · subst he
      simp [dget, dmodify, Ne.symm h, ih]
    · by_cases he' : e.1 = k'
      · simp [dget, dmodify, he, he', h]
      · simp [dget, dmodify, he, he', ih]

theorem dget_mem {d : List (κ × α)} {k : κ} {v : α} (h : dget d k = some v) :
    (k, v) ∈ d := by
  induction d with
  | nil => simp [dget] at h
  | cons e rest ih =>
    by_cases he : e.1 = k
    · simp [dget, he] at h
      subst he
      subst h
      exact List.mem_cons_self _ _
    · simp [dget, he] at h
      exact List.mem_cons_of_mem _ (ih h)

theorem dget_eq_none_of_not_mem {d : List (κ × α)} {k : κ}
    (h : k ∉ d.map Prod.fst) : dget d k = none := by
  induction d with
  | nil => rfl
  | cons e rest ih =>
    simp only [List.map_cons, List.mem_cons] at h
    push_neg at h
    simp [dget, Ne.symm h.1, ih h.2]

theorem dget_isSome_of_mem {d : List (κ × α)} {k : κ}
    (h : k ∈ d.map Prod.fst) : (dget d k).isSome = true := by
  induction d with
  | nil => simp at h
  | cons e rest ih =>
    by_cases he : e.1 = k
    · simp [dget, he]
    · simp only [List.map_cons, List.mem_cons] at h
      rcases h with h | h
      · exact absurd h.symm he
      · simp [dget, he, ih h]

theorem dget_append (d1 d2 : List (κ × α)) (k : κ) :
    dget (d1 ++ d2) k =
      match dget d1 k with
      | some v => some v
      | none => dget d2 k := by
  induction d1 with
  | nil => simp [dget]
  | cons e rest ih =>
    by_cases he : e.1 = k
    · simp [dget, he]
    · simp [dget, he, ih]

theorem dget_append_left {d1 : List (κ × α)} (d2 : List (κ × α)) {k : κ}
    (h : k ∈ d1.map Prod.fst) : dget (d1 ++ d2) k = dget d1 k := by
  rw [dget_append]
  have hs := dget_isSome_of_mem (d := d1) h
  cases ho : dget d1 k with
  | none => rw [ho] at hs; simp at hs
  | some v => rfl

theorem dget_append_right {d1 : List (κ × α)} (d2 : List (κ × α)) {k : κ}
    (h : k ∉ d1.map Prod.fst) : dget (d1 ++ d2) k = dget d2 k := by
  rw [dget_append, dget_eq_none_of_not_mem h]

theorem dset_append_right {d1 : List (κ × α)} (d2 : List (κ × α)) {k : κ} (v : α)
    (h : k ∉ d1.map Prod.fst) : dset (d1 ++ d2) k v = d1 ++ dset d2 k v := by
  induction d1 with
  | nil => rfl
  | cons e rest ih =>
    simp only [List.map_cons, List.mem_cons] at h
    push_neg at h
    simp [dset, Ne.symm h.1, List.cons_append, ih h.2]

theorem dpop_append_right {d1 : List (κ × α)} (d2 : List (κ × α)) {k : κ}
    (h : k ∉ d1.map Prod.fst) : dpop (d1 ++ d2) k = d1 ++ dpop d2 k := by
  induction d1 with
  | nil => rfl
  | cons e rest ih =>
    simp only [List.map_cons, List.mem_cons] at h
    push_neg at h
    simp [dpop, Ne.symm h.1, List.cons_append, ih h.2]

end DictLemmas

section SortLemmas

variable (prio : String → Int)

theorem mem_insertDesc {a x : String} {l : List String} :
    a ∈ insertDesc prio x l ↔ a = x ∨ a ∈ l := by
  induction l with
  | nil => simp [insertDesc]
  | cons y ys ih =>
    by_cases h : prio x ≥ prio y
    · simp [insertDesc, h]
    · simp only [insertDesc, if_neg h, List.mem_cons, ih]
      tauto

theorem sortDesc_nil : sortDesc prio [] = [] := rfl

theorem sortDesc_cons (x : String) (l : List String) :
    sortDesc prio (x :: l) = insertDesc prio x (sortDesc prio l) := rfl

theorem mem_sortDesc {a : String} {l : List String} :
    a ∈ sortDesc prio l ↔ a ∈ l := by
  induction l with
  | nil => simp [sortDesc]
  | cons x xs ih =>
    rw [sortDesc_cons, mem_insertDesc]
    simp [ih]

theorem sortDesc_eq_nil_iff {l : List String} : sortDesc prio l = [] ↔ l = [] := by
  cases l with
  | nil => simp [sortDesc]
  | cons x xs =>
    constructor
    · intro h
      have : x ∈ sortDesc prio (x :: xs) := (mem_sortDesc prio).2 (List.mem_cons_self _ _)
      rw [h] at this
      cases this
    · intro h
      cases h

theorem insertDesc_sorted {x : String} {l : List String}
    (h : l.Pairwise (fun a b => prio a ≥ prio b)) :
    (insertDesc prio x l).Pairwise (fun a b => prio a ≥ prio b) := by
  induction l with
  | nil => simp [insertDesc]
  | cons y ys ih =>
    rcases List.pairwise_cons.1 h with ⟨hy, hys⟩
    by_cases hc : prio x ≥ prio y
    · rw [insertDesc, if_pos hc]
      refine List.pairwise_cons.2 ⟨?_, h⟩
      intro b hb
      rcases List.mem_cons.1 hb with rfl | hb
      · exact hc
      · exact le_trans (hy b hb) hc
    · rw [insertDesc, if_neg hc]
      refine List.pairwise_cons.2 ⟨?_, ih hys⟩
      intro b hb
      rcases (mem_insertDesc prio).1 hb with rfl | hb
      · exact le_of_lt (lt_of_not_ge hc)
      · exact hy b hb

theorem sortDesc_sorted (l : List String) :
    (sortDesc prio l).Pairwise (fun a b => prio a ≥ prio b) := by
  induction l with
  | nil => simp [sortDesc]
  | cons x xs ih =>
    rw [sortDesc_cons]
    exact insertDesc_sorted prio ih

theorem filter_insertDesc (p : Int) (x : String) (l : List String) :
    (insertDesc prio x l).filter (fun a => decide (prio a = p)) =
      if prio x = p then x :: l.filter (fun a => decide (prio a = p))
      else l.filter (fun a => decide (prio a = p)) := by
  induction l with
  | nil =>
    rw [insertDesc]
    by_cases h : prio x = p
    · rw [if_pos h, List.filter_cons_of_pos (by simpa using h)]
    · rw [if_neg h, List.filter_cons_of_neg (by simpa using h)]
  | cons y ys ih =>
    by_cases hc : prio x ≥ prio y
    · rw [insertDesc, if_pos hc]
      by_cases h : prio x = p
      · rw [if_pos h, List.filter_cons_of_pos (by simpa using h)]
      · rw [if_neg h, List.filter_cons_of_neg (by simpa using h)]
    · have hyx : prio y > prio x := lt_of_not_ge hc
      rw [insertDesc, if_neg hc]
      by_cases h : prio x = p
      · have hy : ¬ prio y = p := by
          intro hy
          rw [hy, ← h] at hyx
          exact lt_irrefl _ hyx
        rw [if_pos h, List.filter_cons_of_neg (by simpa using hy), ih, if_pos h,
          List.filter_cons_of_neg (by simpa using hy)]
      · by_cases hy : prio y = p
        · rw [if_neg h, List.filter_cons_of_pos (by simpa using hy), ih, if_neg h,
            List.filter_cons_of_pos (by simpa using hy)]
        · rw [if_neg h, List.filter_cons_of_neg (by simpa using hy), ih, if_neg h,
            List.filter_cons_of_neg (by simpa using hy)]

theorem filter_sortDesc (p : Int) (l : List String) :
    (sortDesc prio l).filter (fun a => decide (prio a = p)) =
      l.filter (fun a => decide (prio a = p)) := by
  induction l with
  | nil => rfl
  | cons x xs ih =>
    rw [sortDesc_cons, filter_insertDesc]
    by_cases h : prio x = p
    · rw [if_pos h, ih, List.filter_cons_of_pos (by simpa using h)]
    · rw [if_neg h, ih, List.filter_cons_of_neg (by simpa using h)]

theorem sorted_eq_of_filters :
    ∀ (l m : List String),
      l.Pairwise (fun a b => prio a ≥ prio b) →
      m.Pairwise (fun a b => prio a ≥ prio b) →
      (∀ p : Int, l.filter (fun a => decide (prio a = p)) =
        m.filter (fun a => decide (prio a = p))) →
      l = m := by
  intro l
  induction l with
  | nil =>
    intro m _ _ hf
    cases m with
    | nil => rfl
    | cons b m' =>
      have := hf (prio b)
      simp [List.filter] at this
  | cons a l' ih =>
    intro m hl hm hf
    cases m with
    | nil =>
      have := hf (prio a)
      simp [List.filter] at this
    | cons b m' =>
      rcases List.pairwise_cons.1 hl with ⟨ha, hl'⟩
      rcases List.pairwise_cons.1 hm with ⟨hb, hm'⟩
      have hab1 : prio a ≤ prio b := by
        have hmem : a ∈ (b :: m').filter (fun x => decide (prio x = prio a)) := by
          rw [← hf (prio a), List.filter_cons_of_pos (by simp)]
          exact List.mem_cons_self _ _
        rcases List.mem_cons.1 (List.mem_of_mem_filter hmem) with rfl | hmm
        · exact le_refl _
        · exact hb a hmm
      have hab2 : prio b ≤ prio a := by
        have hmem : b ∈ (a :: l').filter (fun x => decide (prio x = prio b)) := by
          rw [hf (prio b), List.filter_cons_of_pos (by simp)]
          exact List.mem_cons_self _ _
        rcases List.mem_cons.1 (List.mem_of_mem_filter hmem) with rfl | hmm
        · exact le_refl _
        · exact ha b hmm
      have hab : prio a = prio b := le_antisymm hab1 hab2
      have hP := hf (prio a)
      rw [List.filter_cons_of_pos (by simp), List.filter_cons_of_pos (by simpa using hab.symm)]
        at hP
      rw [List.cons.injEq] at hP
      obtain ⟨hhead, htail⟩ := hP
      subst hhead
      have htails : ∀ p : Int, l'.filter (fun x => decide (prio x = p)) =
          m'.filter (fun x => decide (prio x = p)) := by
        intro p
        by_cases hp : prio a = p
        · rw [← hp]
          exact htail
        · have h3 := hf p
          rw [List.filter_cons_of_neg (by simpa using hp),
            List.filter_cons_of_neg (by simpa using hp)] at h3
          exact h3
      rw [ih m' hl' hm' htails]

theorem sortDesc_eq_self_of_sorted {l : List String}
    (h : l.Pairwise (fun a b => prio a ≥ prio b)) : sortDesc prio l = l :=
  sorted_eq_of_filters prio _ _ (sortDesc_sorted prio l) h
    (fun p => filter_sortDesc prio p l)

theorem sortDesc_sortDesc_append (l r : List String) :
    sortDesc prio (sortDesc prio l ++ r) = sortDesc prio (l ++ r) := by
  refine sorted_eq_of_filters prio _ _ (sortDesc_sorted prio _) (sortDesc_sorted prio _) ?_
  intro p
  rw [filter_sortDesc, filter_sortDesc, List.filter_append, List.filter_append,
    filter_sortDesc]

theorem insertDesc_congr {prio2 : String → Int} {x : String} {l : List String}
    (h : ∀ a, a = x ∨ a ∈ l → prio a = prio2 a) :
    insertDesc prio x l = insertDesc prio2 x l := by
  induction l with
  | nil => rfl
  | cons y ys ih =>
    have hx := h x (Or.inl rfl)
    have hy := h y (Or.inr (List.mem_cons_self _ _))
    rw [insertDesc, insertDesc, hx, hy]
    by_cases hc : prio2 x ≥ prio2 y
    · rw [if_pos hc, if_pos hc]
    · rw [if_neg hc, if_neg hc, ih]
      intro a ha
      rcases ha with rfl | ha
      · exact hx
      · exact h a (Or.inr (List.mem_cons_of_mem _ ha))

theorem sortDesc_congr (prio2 : String → Int) (l : List String)
    (h : ∀ a ∈ l, prio a = prio2 a) : sortDesc prio l = sortDesc prio2 l := by
  induction l with
  | nil => rfl
  | cons x xs ih =>
    rw [sortDesc_cons, sortDesc_cons,
      ih (fun a ha => h a (List.mem_cons_of_mem _ ha))]
    refine insertDesc_congr prio ?_
    intro a ha
    rcases ha with rfl | ha
    · exact h a (List.mem_cons_self _ _)
    · exact h a (List.mem_cons_of_mem _ ((mem_sortDesc prio2).1 ha))

theorem pairwise_congr {prio2 : String → Int} {l : List String}
    (h : ∀ a ∈ l, prio a = prio2 a)
    (hp : l.Pairwise (fun a b => prio a ≥ prio b)) :
    l.Pairwise (fun a b => prio2 a ≥ prio2 b) := by
  induction l with
  | nil => exact List.Pairwise.nil
  | cons x xs ih =>
    rcases List.pairwise_cons.1 hp with ⟨hx, hxs⟩
    refine List.pairwise_cons.2 ⟨?_, ih (fun a ha => h a (List.mem_cons_of_mem _ ha)) hxs⟩
    intro b hb
    rw [← h x (List.mem_cons_self _ _), ← h b (List.mem_cons_of_mem _ hb)]
    exact hx b hb

theorem sorted_firstIdx_lt {l : List String} {p1 p2 : String}
    (hl : l.Pairwise (fun a b => prio a ≥ prio b))
    (h1 : p1 ∈ l) (h2 : p2 ∈ l) (hgt : prio p1 > prio p2) :
    firstIdx l p1 < firstIdx l p2 := by
  induction l with
  | nil => cases h1
  | cons x xs ih =>
    rcases List.pairwise_cons.1 hl with ⟨hx, hxs⟩
    have hne : p1 ≠ p2 := by
      intro h
      rw [h] at hgt
      exact lt_irrefl _ hgt
    by_cases hx1 : x = p1
    · have hx2 : x ≠ p2 := by rw [hx1]; exact hne
      rw [firstIdx, if_pos hx1, firstIdx, if_neg hx2]
      exact Nat.succ_pos _
    · have hx2 : x ≠ p2 := by
        intro h
        subst h
        have hp1 : p1 ∈ xs := by
          rcases List.mem_cons.1 h1 with h | h
          · exact absurd h.symm hx1
          · exact h
        have := hx p1 hp1
        exact absurd hgt (not_lt.2 this)
      have hp1 : p1 ∈ xs := by
        rcases List.mem_cons.1 h1 with h | h
        · exact absurd h.symm hx1
        · exact h
      have hp2 : p2 ∈ xs := by
        rcases List.mem_cons.1 h2 with h | h
        · exact absurd h.symm hx2
        · exact h
      rw [firstIdx, if_neg hx1, firstIdx, if_neg hx2]
      exact Nat.succ_lt_succ (ih hxs hp1 hp2)

end SortLemmas

section BuildLemmas

theorem normProvider_products (c : ProviderConfig) :
    (normProvider c).products = c.products := by
  unfold normProvider
  by_cases h : c.priority = none
  · rw [if_pos h]
  · rw [if_neg h]

theorem normProvider_priority_isSome (c : ProviderConfig) :
    ((normProvider c).priority).isSome = true := by
  unfold normProvider
  by_cases h : c.priority = none
  · rw [if_pos h]
    rfl
  · rw [if_neg h]
    cases hc : c.priority with
    | none => exact absurd hc h
    | some v => rfl

theorem normalizeStore_nil : normalizeStore [] = [] := rfl

theorem normalizeStore_cons (e : String × ProviderConfig) (s : Store) :
    normalizeStore (e :: s) =
      if e.2.products = [] then normalizeStore s
      else (e.1, normProvider e.2) :: normalizeStore s := by
  unfold normalizeStore
  by_cases h : e.2.products = []
  · rw [if_pos h, List.filter_cons_of_neg (by simpa using h)]
  · rw [if_neg h, List.filter_cons_of_pos (by simpa using h), List.map_cons]

theorem skippedOf_nil : skippedOf [] = [] := rfl

theorem skippedOf_cons (e : String × ProviderConfig) (s : Store) :
    skippedOf (e :: s) =
      if e.2.products = [] then e.1 :: skippedOf s else skippedOf s := by
  unfold skippedOf
  by_cases h : e.2.products = []
  · rw [if_pos h, List.filter_cons_of_pos (by simpa using h), List.map_cons]
  · rw [if_neg h, List.filter_cons_of_neg (by simpa using h)]

theorem providersFor_nil (pt : String) : providersFor [] pt = [] := rfl

theorem providersFor_cons (e : String × ProviderConfig) (s : Store) (pt : String) :
    providersFor (e :: s) pt =
      if pt ∈ e.2.products then e.1 :: providersFor s pt else providersFor s pt := by
  unfold providersFor
  by_cases h : pt ∈ e.2.products
  · rw [if_pos h, List.filter_cons_of_pos (by simpa using h), List.map_cons]
  · rw [if_neg h, List.filter_cons_of_neg (by simpa using h)]

theorem normalizeStore_keys_sublist (s : Store) :
    List.Sublist ((normalizeStore s).map Prod.fst) (s.map Prod.fst) := by
  induction s with
  | nil => exact List.Sublist.refl _
  | cons e s ih =>
    rw [normalizeStore_cons]
    by_cases h : e.2.products = []
    · rw [if_pos h, List.map_cons]
      exact ih.trans (List.sublist_cons_self _ _)
    · rw [if_neg h, List.map_cons, List.map_cons]
      exact ih.cons₂ _

theorem storePriority_append_left {d1 : Store} (d2 : Store) {n : String}
    (h : n ∈ d1.map Prod.fst) :
    storePriority (d1 ++ d2) n = storePriority d1 n := by
  unfold storePriority
  rw [dget_append_left d2 h]

theorem mergeEntry_some (prio : String → Int) (xs l : List String) :
    mergeEntry prio (some xs) l = some (sortDesc prio (xs ++ l)) := rfl

theorem mergeEntry_none_cons (prio : String → Int) (x : String) (l : List String) :
    mergeEntry prio none (x :: l) = some (sortDesc prio (x :: l)) := rfl

theorem mergeEntry_none_nil (prio : String → Int) :
    mergeEntry prio none [] = none := rfl

theorem insertProducts_dget (store : Store) (n : String) (ps : List String)
    (idx : Index) (hnd : ps.Nodup) (pt : String) :
    dget (insertProducts store n ps idx) pt =
      if pt ∈ ps then
        some (sortDesc (storePriority store) (((dget idx pt).getD []) ++ [n]))
      else dget idx pt := by
  induction ps generalizing idx with
  | nil => rw [insertProducts, if_neg (List.not_mem_nil pt)]
  | cons q rest ih =>
    rcases List.nodup_cons.1 hnd with ⟨hq, hrest⟩
    rw [insertProducts, ih _ hrest]
    by_cases hmem : pt ∈ rest
    · have hne : pt ≠ q := fun h => hq (h ▸ hmem)
      rw [if_pos hmem, if_pos (List.mem_cons_of_mem _ hmem),
        dget_dset_ne _ _ _ _ hne]
    · rw [if_neg hmem]
      by_cases heq : pt = q
      · subst heq
        rw [dget_dset_self, if_pos (List.mem_cons_self _ _)]
      · rw [dget_dset_ne _ _ _ _ heq, if_neg (by
          intro hc
          rcases List.mem_cons.1 hc with h | h
          · exact heq h
          · exact hmem h)]

theorem buildGo_spec :
    ∀ (s done : Store) (idx : Index) (sk : List String),
      ((done ++ s).map Prod.fst).Nodup →
      (∀ e ∈ s, e.2.products.Nodup) →
      (∀ pt xs, dget idx pt = some xs → ∀ m ∈ xs, m ∈ done.map Prod.fst) →
      (∀ pt xs, dget idx pt = some xs →
        xs.Pairwise (fun a b => storePriority done a ≥ storePriority done b)) →
      ∃ idx2,
        buildGo (done ++ s) (s.map Prod.fst) idx sk =
          (done ++ normalizeStore s, idx2, sk ++ skippedOf s) ∧
        ∀ pt, dget idx2 pt =
          mergeEntry (storePriority (done ++ normalizeStore s)) (dget idx pt)
            (providersFor s pt) := by
  intro s
  induction s with
  | nil =>
    intro done idx sk hnd hprod hmem hsorted
    refine ⟨idx, ?_, ?_⟩
    · simp [buildGo, normalizeStore_nil, skippedOf_nil]
    · intro pt
      rw [normalizeStore_nil, providersFor_nil, List.append_nil]
      cases h : dget idx pt with
      | none => rfl
      | some xs =>
        show some xs = some (sortDesc _ (xs ++ []))
        rw [List.append_nil, sortDesc_eq_self_of_sorted _ (hsorted pt xs h)]
  | cons e s2 ih =>
    intro done idx sk hnd hprod hmem hsorted
    obtain ⟨n, cfg⟩ := e
    have hn_done : n ∉ done.map Prod.fst := by
      simp only [List.map_append, List.map_cons] at hnd
      rcases List.nodup_append.1 hnd with ⟨h1, h2, hdisj⟩
      intro hc
      exact hdisj hc (List.mem_cons_self _ _)
    have hdg : dget (done ++ (n, cfg) :: s2) n = some cfg := by
      rw [dget_append_right _ hn_done]
      simp [dget]
    have hE0 : ∀ pt a, a ∈ (dget idx pt).getD [] → a ∈ done.map Prod.fst := by
      intro pt a ha
      cases hg : dget idx pt with
      | none => rw [hg] at ha; cases ha
      | some ys => rw [hg] at ha; exact hmem pt ys hg a ha
    by_cases hp : cfg.products = []
    · -- provider with no products: popped from the store and recorded as skipped
      have hpop : dpop (done ++ (n, cfg) :: s2) n = done ++ s2 := by
        rw [dpop_append_right _ hn_done]
        simp [dpop]
      have hnd2 : ((done ++ s2).map Prod.fst).Nodup := by
        refine List.Nodup.sublist ?_ hnd
        simp only [List.map_append, List.map_cons]
        exact List.Sublist.append_left (List.sublist_cons_self _ _) _
      obtain ⟨idx2, heq, hdg2⟩ := ih done idx (sk ++ [n]) hnd2
        (fun e he => hprod e (List.mem_cons_of_mem _ he)) hmem hsorted
      refine ⟨idx2, ?_, ?_⟩
      · simp only [List.map_cons, buildGo, hdg]
        rw [if_pos hp, hpop, heq, normalizeStore_cons, if_pos hp,
          skippedOf_cons, if_pos hp, List.append_cons sk n (skippedOf s2)]
      · intro pt
        rw [hdg2 pt, normalizeStore_cons, if_pos hp, providersFor_cons,
          if_neg (by rw [hp]; exact List.not_mem_nil pt)]
    · -- surviving provider: normalized in place and inserted into the index
      have hcfg' : (if cfg.priority = none then { cfg with priority := some 0 }
          else cfg) = normProvider cfg := rfl
      have hstore' : dset (done ++ (n, cfg) :: s2) n (normProvider cfg) =
          (done ++ [(n, normProvider cfg)]) ++ s2 := by
        rw [dset_append_right _ _ hn_done]
        simp [dset, List.append_assoc]
      have hdone1 : n ∈ (done ++ [(n, normProvider cfg)]).map Prod.fst := by
        simp
      have hmemS : ∀ m, m ∈ (done ++ [(n, normProvider cfg)]).map Prod.fst ↔
          m = n ∨ m ∈ done.map Prod.fst := by
        intro m
        simp [or_comm]
      have hnd2 : (((done ++ [(n, normProvider cfg)]) ++ s2).map Prod.fst).Nodup := by
        simp only [List.map_append, List.map_cons, List.map_nil, List.append_assoc,
          List.singleton_append] at hnd ⊢
        exact hnd
      have hprodn : (normProvider cfg).products.Nodup := by
        rw [normProvider_products]
        exact hprod _ (List.mem_cons_self _ _)
      have hmem1 : ∀ pt xs,
          dget (insertProducts ((done ++ [(n, normProvider cfg)]) ++ s2) n
            (normProvider cfg).products idx) pt = some xs →
          ∀ m ∈ xs, m ∈ (done ++ [(n, normProvider cfg)]).map Prod.fst := by
        intro pt xs hxs m hm
        rw [insertProducts_dget _ _ _ _ hprodn pt] at hxs
        by_cases hin : pt ∈ (normProvider cfg).products
        · rw [if_pos hin] at hxs
          obtain rfl := Option.some.inj hxs
          rcases List.mem_append.1 ((mem_sortDesc _).1 hm) with h | h
          · exact (hmemS m).2 (Or.inr (hE0 pt m h))
          · rcases List.mem_singleton.1 h with rfl
            exact hdone1
        · rw [if_neg hin] at hxs
          exact (hmemS m).2 (Or.inr (hmem pt xs hxs m hm))
      have hsorted1 : ∀ pt xs,
          dget (insertProducts ((done ++ [(n, normProvider cfg)]) ++ s2) n
            (normProvider cfg).products idx) pt = some xs →
          xs.Pairwise (fun a b =>
            storePriority (done ++ [(n, normProvider cfg)]) a ≥
            storePriority (done ++ [(n, normProvider cfg)]) b) := by
        intro pt xs hxs
        rw [insertProducts_dget _ _ _ _ hprodn pt] at hxs
        by_cases hin : pt ∈ (normProvider cfg).products
        · rw [if_pos hin] at hxs
          obtain rfl := Option.some.inj hxs
          refine pairwise_congr _ ?_ (sortDesc_sorted _ _)
          intro a ha
          have haM : a ∈ (done ++ [(n, normProvider cfg)]).map Prod.fst := by
            rcases List.mem_append.1 ((mem_sortDesc _).1 ha) with h | h
            · exact (hmemS a).2 (Or.inr (hE0 pt a h))
            · rcases List.mem_singleton.1 h with rfl
              exact hdone1
          exact storePriority_append_left s2 haM
        · rw [if_neg hin] at hxs
          refine pairwise_congr _ ?_ (hsorted pt xs hxs)
          intro a ha
          exact (storePriority_append_left [(n, normProvider cfg)]
            (hmem pt xs hxs a ha)).symm
      obtain ⟨idx2, heq, hdg2⟩ := ih (done ++ [(n, normProvider cfg)])
        (insertProducts ((done ++ [(n, normProvider cfg)]) ++ s2) n
          (normProvider cfg).products idx) sk hnd2
        (fun e he => hprod e (List.mem_cons_of_mem _ he)) hmem1 hsorted1
      refine ⟨idx2, ?_, ?_⟩
      · simp only [List.map_cons, buildGo, hdg]
        rw [if_neg hp, hcfg', hstore', heq, normalizeStore_cons, if_neg hp,
          skippedOf_cons, if_neg hp, List.append_assoc]
        rfl
      · intro pt
        rw [hdg2 pt, insertProducts_dget _ _ _ _ hprodn pt]
        rw [normalizeStore_cons, if_neg hp, providersFor_cons]
        have hassoc : (done ++ [(n, normProvider cfg)]) ++ normalizeStore s2 =
            done ++ (n, normProvider cfg) :: normalizeStore s2 := by
          rw [List.append_assoc]
          rfl
        by_cases hin : pt ∈ cfg.products
        · rw [if_pos (by rw [normProvider_products]; exact hin), if_pos hin,
            mergeEntry_some]
          cases hg : dget idx pt with
          | none =>
            rw [mergeEntry_none_cons]
            congr 1
            rw [Option.getD_none, List.nil_append,
              sortDesc_congr _ (storePriority
                ((done ++ [(n, normProvider cfg)]) ++ normalizeStore s2)) [n] (by
                intro a ha
                rcases List.mem_singleton.1 ha with rfl
                rw [storePriority_append_left s2 hdone1,
                  storePriority_append_left (normalizeStore s2) hdone1]),
              sortDesc_sortDesc_append, hassoc]
            rfl
          | some ys =>
            rw [mergeEntry_some]
            congr 1
            rw [Option.getD_some,
              sortDesc_congr _ (storePriority
                ((done ++ [(n, normProvider cfg)]) ++ normalizeStore s2)) (ys ++ [n]) (by
                intro a ha
                have haM : a ∈ (done ++ [(n, normProvider cfg)]).map Prod.fst := by
                  rcases List.mem_append.1 ha with h | h
                  · refine (hmemS a).2 (Or.inr ?_)
                    have := hE0 pt a
                    rw [hg] at this
                    exact this h
                  · rcases List.mem_singleton.1 h with rfl
                    exact hdone1
                rw [storePriority_append_left s2 haM,
                  storePriority_append_left (normalizeStore s2) haM]),
              sortDesc_sortDesc_append, hassoc, List.append_assoc,
              List.singleton_append]
        · rw [if_neg (by rw [normProvider_products]; exact hin), if_neg hin, hassoc]

theorem buildProductTypeMap_spec (store0 : Store)
    (hnd : (store0.map Prod.fst).Nodup)
    (hprod : ∀ e ∈ store0, e.2.products.Nodup) :
    ∃ idx, buildProductTypeMap store0 =
        (normalizeStore store0, idx, skippedOf store0) ∧
      ∀ pt, dget idx pt =
        mergeEntry (storePriority (normalizeStore store0)) none
          (providersFor store0 pt) := by
  obtain ⟨idx2, heq, hdg⟩ := buildGo_spec store0 [] [] []
    (by simpa using hnd) hprod
    (by intro pt xs hxs; cases hxs)
    (by intro pt xs hxs; cases hxs)
  refine ⟨idx2, ?_, ?_⟩
  · simpa [buildProductTypeMap] using heq
  · intro pt
    simpa using hdg pt

theorem normProvider_norm (c : ProviderConfig) :
    normProvider (normProvider c) = normProvider c := by
  unfold normProvider
  by_cases h : c.priority = none
  · rw [if_pos h, if_neg (by simp)]
  · rw [if_neg h, if_neg h]

theorem normalizeStore_idem (s : Store) :
    normalizeStore (normalizeStore s) = normalizeStore s := by
  induction s with
  | nil => rfl
  | cons e s ih =>
    rw [normalizeStore_cons]
    by_cases h : e.2.products = []
    · rw [if_pos h, ih]
    · rw [if_neg h, normalizeStore_cons]
      simp only [normProvider_products]
      rw [if_neg h, normProvider_norm, ih]

theorem skippedOf_normalizeStore (s : Store) : skippedOf (normalizeStore s) = [] := by
  induction s with
  | nil => rfl
  | cons e s ih =>
    rw [normalizeStore_cons]
    by_cases h : e.2.products = []
    · rw [if_pos h, ih]
    · rw [if_neg h, skippedOf_cons]
      simp only [normProvider_products]
      rw [if_neg h, ih]

theorem providersFor_normalizeStore (s : Store) (pt : String) :
    providersFor (normalizeStore s) pt = providersFor s pt := by
  induction s with
  | nil => rfl
  | cons e s ih =>
    rw [providersFor_cons, normalizeStore_cons]
    by_cases h : e.2.products = []
    · rw [if_pos h, if_neg (by rw [h]; exact List.not_mem_nil pt), ih]
    · rw [if_neg h, providersFor_cons]
      simp only [normProvider_products]
      by_cases hin : pt ∈ e.2.products
      · rw [if_pos hin, if_pos hin, ih]
      · rw [if_neg hin, if_neg hin, ih]

theorem mem_normalizeStore {s : Store} {e : String × ProviderConfig}
    (h : e ∈ normalizeStore s) :
    ∃ c, (e.1, c) ∈ s ∧ c.products ≠ [] ∧ e.2 = normProvider c := by
  induction s with
  | nil => cases h
  | cons f s ih =>
    rw [normalizeStore_cons] at h
    by_cases hf : f.2.products = []
    · rw [if_pos hf] at h
      obtain ⟨c, hc, hp, he⟩ := ih h
      exact ⟨c, List.mem_cons_of_mem _ hc, hp, he⟩
    · rw [if_neg hf] at h
      rcases List.mem_cons.1 h with rfl | h
      · exact ⟨f.2, by simp [List.mem_cons], hf, rfl⟩
      · obtain ⟨c, hc, hp, he⟩ := ih h
        exact ⟨c, List.mem_cons_of_mem _ hc, hp, he⟩

theorem dget_of_mem_nodup {s : Store} {e : String × ProviderConfig}
    (hnd : (s.map Prod.fst).Nodup) (h : e ∈ s) : dget s e.1 = some e.2 := by
  induction s with
  | nil => cases h
  | cons f s ih =>
    rw [List.map_cons] at hnd
    rcases List.nodup_cons.1 hnd with ⟨hf, hs⟩
    rcases List.mem_cons.1 h with rfl | hm
    · simp [dget]
    · have hne : f.1 ≠ e.1 := by
        intro hc
        refine hf ?_
        rw [hc]
        exact List.mem_map.2 ⟨e, hm, rfl⟩
      rw [dget, if_neg hne]
      exact ih hs hm

theorem dget_normalizeStore {s : Store} (hnd : (s.map Prod.fst).Nodup) (k : String) :
    dget (normalizeStore s) k =
      match dget s k with
      | none => none
      | some c => if c.products = [] then none else some (normProvider c) := by
  induction s with
  | nil => rfl
  | cons e s ih =>
    rw [List.map_cons] at hnd
    rcases List.nodup_cons.1 hnd with ⟨he, hs⟩
    rw [normalizeStore_cons]
    by_cases hk : e.1 = k
    · subst hk
      rw [show dget (e :: s) e.1 = some e.2 by simp [dget]]
      dsimp only
      by_cases hp : e.2.products = []
      · rw [if_pos hp, if_pos hp]
        refine dget_eq_none_of_not_mem ?_
        intro hc
        exact he (List.Sublist.mem hc (normalizeStore_keys_sublist s))
      · rw [if_neg hp]
        simp [dget, hp]
    · rw [show dget (e :: s) k = dget s k by rw [dget, if_neg hk]]
      by_cases hp : e.2.products = []
      · rw [if_pos hp, ih hs]
      · rw [if_neg hp,
          show dget ((e.1, normProvider e.2) :: normalizeStore s) k =
            dget (normalizeStore s) k by rw [dget, if_neg hk],
          ih hs]

theorem mem_skippedOf {s : Store} {e : String × ProviderConfig}
    (h : e ∈ s) (hp : e.2.products = []) : e.1 ∈ skippedOf s := by
  unfold skippedOf
  exact List.mem_map.2 ⟨e, List.mem_filter.2 ⟨h, by simpa using hp⟩, rfl⟩

end BuildLemmas

section PluginLemmas

theorem buildPlugin_hit {st : MgrState} {prov topic : String} {id : Nat}
    (conf : PluginConfig)
    (hc : dget st.cache (prov, topic) = some (some id)) :
    buildPlugin st prov conf topic = (st, Except.ok id) := by
  simp only [buildPlugin, hc]

theorem buildPlugin_cases_absent {st : MgrState} {prov topic : String}
    (conf : PluginConfig)
    (hc : dget st.cache (prov, topic) = none) :
    buildPlugin st prov conf topic =
      if (topic, conf.type) ∈ st.registry then
        ({ st with
            cache := dset (dset st.cache (prov, topic) none) (prov, topic)
              (some st.nextId),
            instances := dset st.instances st.nextId
              { provider := prov, conf := conf, priority := conf.priority },
            nextId := st.nextId + 1 }, Except.ok st.nextId)
      else ({ st with cache := dset st.cache (prov, topic) none },
        Except.error (MgrError.unknownPluginType topic conf.type)) := by
  simp only [buildPlugin, hc, dget_dset_self]

theorem buildPlugin_cases_placeholder {st : MgrState} {prov topic : String}
    (conf : PluginConfig)
    (hc : dget st.cache (prov, topic) = some none) :
    buildPlugin st prov conf topic =
      if (topic, conf.type) ∈ st.registry then
        ({ st with
            cache := dset st.cache (prov, topic) (some st.nextId),
            instances := dset st.instances st.nextId
              { provider := prov, conf := conf, priority := conf.priority },
            nextId := st.nextId + 1 }, Except.ok st.nextId)
      else (st, Except.error (MgrError.unknownPluginType topic conf.type)) := by
  simp only [buildPlugin, hc]

theorem buildPlugin_ok_cached {st st1 : MgrState} {prov topic : String}
    {conf : PluginConfig} {id : Nat}
    (h : buildPlugin st prov conf topic = (st1, Except.ok id)) :
    dget st1.cache (prov, topic) = some (some id) := by
  cases hc : dget st.cache (prov, topic) with
  | none =>
    rw [buildPlugin_cases_absent conf hc] at h
    by_cases hreg : (topic, conf.type) ∈ st.registry
    · rw [if_pos hreg, Prod.mk.injEq] at h
      obtain ⟨h1, h2⟩ := h
      rw [Except.ok.injEq] at h2
      rw [← h1, ← h2]
      exact dget_dset_self _ _ _
    · rw [if_neg hreg, Prod.mk.injEq] at h
      exact absurd h.2 (by simp)
  | some v =>
    cases v with
    | none =>
      rw [buildPlugin_cases_placeholder conf hc] at h
      by_cases hreg : (topic, conf.type) ∈ st.registry
      · rw [if_pos hreg, Prod.mk.injEq] at h
        obtain ⟨h1, h2⟩ := h
        rw [Except.ok.injEq] at h2
        rw [← h1, ← h2]
        exact dget_dset_self _ _ _
      · rw [if_neg hreg, Prod.mk.injEq] at h
        exact absurd h.2 (by simp)
    | some id0 =>
      rw [buildPlugin_hit conf hc, Prod.mk.injEq] at h
      obtain ⟨h1, h2⟩ := h
      rw [Except.ok.injEq] at h2
      rw [← h1, ← h2]
      exact hc

theorem buildPlugin_ok_bounds {st st1 : MgrState} {prov topic : String}
    {conf : PluginConfig} {id : Nat}
    (hwf : ∀ k v, dget st.cache k = some (some v) → v < st.nextId)
    (h : buildPlugin st prov conf topic = (st1, Except.ok id)) :
    id < st1.nextId := by
  cases hc : dget st.cache (prov, topic) with
  | none =>
    rw [buildPlugin_cases_absent conf hc] at h
    by_cases hreg : (topic, conf.type) ∈ st.registry
    · rw [if_pos hreg, Prod.mk.injEq] at h
      obtain ⟨h1, h2⟩ := h
      rw [Except.ok.injEq] at h2
      rw [← h1, ← h2]
      exact Nat.lt_succ_self _
    · rw [if_neg hreg, Prod.mk.injEq] at h
      exact absurd h.2 (by simp)
  | some v =>
    cases v with
    | none =>
      rw [buildPlugin_cases_placeholder conf hc] at h
      by_cases hreg : (topic, conf.type) ∈ st.registry
      · rw [if_pos hreg, Prod.mk.injEq] at h
        obtain ⟨h1, h2⟩ := h
        rw [Except.ok.injEq] at h2
        rw [← h1, ← h2]
        exact Nat.lt_succ_self _
      · rw [if_neg hreg, Prod.mk.injEq] at h
        exact absurd h.2 (by simp)
    | some id0 =>
      rw [buildPlugin_hit conf hc, Prod.mk.injEq] at h
      obtain ⟨h1, h2⟩ := h
      rw [Except.ok.injEq] at h2
      rw [← h1, ← h2]
      exact hwf _ _ hc

theorem buildPlugin_fresh_id {st st1 : MgrState} {prov topic : String}
    {conf : PluginConfig} {id : Nat}
    (hmiss : dget st.cache (prov, topic) = none ∨
      dget st.cache (prov, topic) = some none)
    (h : buildPlugin st prov conf topic = (st1, Except.ok id)) :
    id = st.nextId := by
  rcases hmiss with hc | hc
  · rw [buildPlugin_cases_absent conf hc] at h
    by_cases hreg : (topic, conf.type) ∈ st.registry
    · rw [if_pos hreg, Prod.mk.injEq] at h
      rw [Except.ok.injEq] at h
      exact h.2.symm
    · rw [if_neg hreg, Prod.mk.injEq] at h
      exact absurd h.2 (by simp)
  · rw [buildPlugin_cases_placeholder conf hc] at h
    by_cases hreg : (topic, conf.type) ∈ st.registry
    · rw [if_pos hreg, Prod.mk.injEq] at h
      rw [Except.ok.injEq] at h
      exact h.2.symm
    · rw [if_neg hreg, Prod.mk.injEq] at h
      exact absurd h.2 (by simp)

theorem runSearch_names {st st1 : MgrState} {names : List String}
    {res : List (String × Nat)}
    (h : runSearch st names = (st1, Except.ok res)) :
    res.map Prod.fst = names := by
  induction names generalizing st st1 res with
  | nil =>
    rw [runSearch, Prod.mk.injEq] at h
    rw [Except.ok.injEq] at h
    rw [← h.2]
    rfl
  | cons n rest ih =>
    rw [runSearch] at h
    rcases hg : getPluginForConfig st n with ⟨st2, r⟩
    rw [hg] at h
    cases r with
    | error e =>
      dsimp only at h
      rw [Prod.mk.injEq] at h
      exact absurd h.2 (by simp)
    | ok id =>
      dsimp only at h
      rcases hr : runSearch st2 rest with ⟨st3, r2⟩
      rw [hr] at h
      cases r2 with
      | error e =>
        dsimp only at h
        rw [Prod.mk.injEq] at h
        exact absurd h.2 (by simp)
      | ok l =>
        dsimp only at h
        rw [Prod.mk.injEq] at h
        obtain ⟨h1, h2⟩ := h
        rw [Except.ok.injEq] at h2
        rw [← h2, List.map_cons, ih hr]

theorem selectSearchConfigs_of_entry {st : MgrState} {pt : String} {cs : List String}
    (hidx : dget st.productTypeMap pt = some cs) (hne : cs ≠ []) :
    selectSearchConfigs st (some pt) none = Except.ok cs := by
  cases cs with
  | nil => exact absurd rfl hne
  | cons c cs2 => simp [selectSearchConfigs, hidx]

theorem get_search_plugins_run {st : MgrState} {pt : Option String}
    {prov : Option String} {cs : List String}
    (hsel : selectSearchConfigs st pt prov = Except.ok cs) :
    get_search_plugins st pt prov =
      runSearch st (sortDesc (storePriority st.providersConfig) cs) := by
  rw [get_search_plugins, hsel]

theorem get_search_plugins_err {st : MgrState} {pt : Option String}
    {prov : Option String} {e : MgrError}
    (hsel : selectSearchConfigs st pt prov = Except.error e) :
    get_search_plugins st pt prov = (st, Except.error e) := by
  rw [get_search_plugins, hsel]

theorem buildPlugin_error_shape {st st1 : MgrState} {prov topic : String}
    {conf : PluginConfig} {e : MgrError}
    (h : buildPlugin st prov conf topic = (st1, Except.error e)) :
    e = MgrError.unknownPluginType topic conf.type := by
  cases hc : dget st.cache (prov, topic) with
  | none =>
    rw [buildPlugin_cases_absent conf hc] at h
    by_cases hreg : (topic, conf.type) ∈ st.registry
    · rw [if_pos hreg, Prod.mk.injEq] at h
      exact absurd h.2 (by simp)
    · rw [if_neg hreg, Prod.mk.injEq] at h
      have := h.2
      rw [Except.error.injEq] at this
      exact this.symm
  | some v =>
    cases v with
    | none =>
      rw [buildPlugin_cases_placeholder conf hc] at h
      by_cases hreg : (topic, conf.type) ∈ st.registry
      · rw [if_pos hreg, Prod.mk.injEq] at h
        exact absurd h.2 (by simp)
      · rw [if_neg hreg, Prod.mk.injEq] at h
        have := h.2
        rw [Except.error.injEq] at this
        exact this.symm
    | some id0 =>
      rw [buildPlugin_hit conf hc, Prod.mk.injEq] at h
      exact absurd h.2 (by simp)

theorem getPluginForConfig_error_shape {st st1 : MgrState} {n : String} {e : MgrError}
    (h : getPluginForConfig st n = (st1, Except.error e)) :
    (∃ k, e = MgrError.keyError k) ∨ (∃ s, e = MgrError.misconfigured s) ∨
      (∃ t y, e = MgrError.unknownPluginType t y) := by
  rw [getPluginForConfig] at h
  cases hs : dget st.providersConfig n with
  | none =>
    rw [hs] at h
    dsimp only at h
    rw [Prod.mk.injEq] at h
    have := h.2
    rw [Except.error.injEq] at this
    exact Or.inl ⟨n, this.symm⟩
  | some c =>
    rw [hs] at h
    dsimp only at h
    cases hsearch : c.search with
    | some s =>
      rw [hsearch] at h
      dsimp only at h
      exact Or.inr (Or.inr ⟨_, _, buildPlugin_error_shape h⟩)
    | none =>
      rw [hsearch] at h
      dsimp only at h
      cases hapi : c.api with
      | some a =>
        rw [hapi] at h
        dsimp only at h
        exact Or.inr (Or.inr ⟨_, _, buildPlugin_error_shape h⟩)
      | none =>
        rw [hapi] at h
        dsimp only at h
        rw [Prod.mk.injEq] at h
        have := h.2
        rw [Except.error.injEq] at this
        exact Or.inr (Or.inl ⟨c.name, this.symm⟩)

theorem runSearch_error_shape {names : List String} :
    ∀ {st st1 : MgrState} {e : MgrError},
      runSearch st names = (st1, Except.error e) →
      (∃ k, e = MgrError.keyError k) ∨ (∃ s, e = MgrError.misconfigured s) ∨
        (∃ t y, e = MgrError.unknownPluginType t y) := by
  induction names with
  | nil =>
    intro st st1 e h
    rw [runSearch, Prod.mk.injEq] at h
    exact absurd h.2 (by simp)
  | cons n rest ih =>
    intro st st1 e h
    rw [runSearch] at h
    rcases hg : getPluginForConfig st n with ⟨st2, r⟩
    rw [hg] at h
    cases r with
    | error e2 =>
      dsimp only at h
      rw [Prod.mk.injEq] at h
      have := h.2
      rw [Except.error.injEq] at this
      rw [← this]
      exact getPluginForConfig_error_shape hg
    | ok id =>
      dsimp only at h
      rcases hr : runSearch st2 rest with ⟨st3, r2⟩
      rw [hr] at h
      cases r2 with
      | error e2 =>
        dsimp only at h
        rw [Prod.mk.injEq] at h
        have := h.2
        rw [Except.error.injEq] at this
        rw [← this]
        exact ih hr
      | ok l =>
        dsimp only at h
        rw [Prod.mk.injEq] at h
        exact absurd h.2 (by simp)

section SetPriorityLemmas

theorem setPriorityCacheLoop_fields (p : String) (pr : Int) :
    ∀ (st : MgrState) (l : Cache),
      (setPriorityCacheLoop p pr st l).1.cache = st.cache ∧
      (setPriorityCacheLoop p pr st l).1.providersConfig = st.providersConfig ∧
      (setPriorityCacheLoop p pr st l).1.productTypeMap = st.productTypeMap ∧
      (setPriorityCacheLoop p pr st l).1.nextId = st.nextId ∧
      (setPriorityCacheLoop p pr st l).1.registry = st.registry := by
  intro st l
  induction l generalizing st with
  | nil => exact ⟨rfl, rfl, rfl, rfl, rfl⟩
  | cons e rest ih =>
    rw [setPriorityCacheLoop]
    by_cases hp : e.1.1 = p
    · rw [if_pos hp]
      cases hv : e.2 with
      | none => exact ⟨rfl, rfl, rfl, rfl, rfl⟩
      | some id => exact ih _
    · rw [if_neg hp]
      exact ih _

theorem setPriorityCacheLoop_untouched (p : String) (pr : Int) (id : Nat) :
    ∀ (st st' : MgrState) (l : Cache) (u : Unit),
      setPriorityCacheLoop p pr st l = (st', Except.ok u) →
      (∀ t, ((p, t), some id) ∉ l) →
      dget st'.instances id = dget st.instances id := by
  intro st st' l
  induction l generalizing st with
  | nil =>
    intro u h hno
    rw [setPriorityCacheLoop, Prod.mk.injEq] at h
    rw [h.1]
  | cons e rest ih =>
    intro u h hno
    rw [setPriorityCacheLoop] at h
    by_cases hp : e.1.1 = p
    · rw [if_pos hp] at h
      cases hv : e.2 with
      | none =>
        rw [hv] at h
        rw [Prod.mk.injEq] at h
        exact absurd h.2 (by simp)
      | some id2 =>
        rw [hv] at h
        have hne : id2 ≠ id := by
          intro heq
          subst heq
          refine hno e.1.2 ?_
          have : e = ((p, e.1.2), some id2) := by
            rcases e with ⟨⟨e1, e2⟩, ev⟩
            simp only at hp hv
            rw [hp, hv]
          rw [← this]
          exact List.mem_cons_self _ _
        have := ih _ u h (fun t ht => hno t (List.mem_cons_of_mem _ ht))
        rw [this]
        exact dget_dmodify_ne _ _ _ _ (Ne.symm hne)
    · rw [if_neg hp] at h
      exact ih _ u h (fun t ht => hno t (List.mem_cons_of_mem _ ht))

theorem setPriorityCacheLoop_touched (p : String) (pr : Int) (id : Nat) :
    ∀ (st st' : MgrState) (l : Cache) (u : Unit) (t : String),
      setPriorityCacheLoop p pr st l = (st', Except.ok u) →
      ((p, t), some id) ∈ l →
      dget st'.instances id =
        (dget st.instances id).map (fun i => { i with priority := pr }) := by
  intro st st' l
  induction l generalizing st with
  | nil =>
    intro u t h hm
    cases hm
  | cons e rest ih =>
    intro u t h hm
    rw [setPriorityCacheLoop] at h
    have hmapmap : ∀ (o : Option PluginInstance),
        (o.map (fun i => { i with priority := pr })).map
          (fun i => { i with priority := pr }) =
        o.map (fun i => { i with priority := pr }) := by
      intro o
      cases o with
      | none => rfl
      | some i => rfl
    rcases List.mem_cons.1 hm with heq | hmr
    · -- the head entry is the (p, t) cache entry holding this instance
      have hp : e.1.1 = p := by rw [← heq]
      have hv : e.2 = some id := by rw [← heq]
      rw [if_pos hp, hv] at h
      by_cases hrest : ∃ t2, ((p, t2), some id) ∈ rest
      · obtain ⟨t2, ht2⟩ := hrest
        have := ih _ u t2 h ht2
        rw [this, dget_dmodify_self, hmapmap]
      · push_neg at hrest
        have := setPriorityCacheLoop_untouched p pr id _ _ _ u h
          (fun t2 ht2 => hrest t2 ht2)
        rw [this, dget_dmodify_self]
    · by_cases hp : e.1.1 = p
      · rw [if_pos hp] at h
        cases hv : e.2 with
        | none =>
          rw [hv] at h
          rw [Prod.mk.injEq] at h
          exact absurd h.2 (by simp)
        | some id2 =>
          rw [hv] at h
          by_cases hid : id2 = id
          · subst hid
            have := ih _ u t h hmr
            rw [this, dget_dmodify_self, hmapmap]
          · have := ih _ u t h hmr
            rw [this, dget_dmodify_ne _ _ _ _ (Ne.symm hid)]
      · rw [if_neg hp] at h
        exact ih _ u t h hmr

theorem setPriorityCacheLoop_err (p : String) (pr : Int) (t : String) :
    ∀ (st : MgrState) (l : Cache),
      ((p, t), (none : Option Nat)) ∈ l →
      (setPriorityCacheLoop p pr st l).2 = Except.error MgrError.attributeError := by
  intro st l
  induction l generalizing st with
  | nil =>
    intro hm
    cases hm
  | cons e rest ih =>
    intro hm
    rw [setPriorityCacheLoop]
    rcases List.mem_cons.1 hm with heq | hmr
    · have hp : e.1.1 = p := by rw [← heq]
      have hv : e.2 = none := by rw [← heq]
      rw [if_pos hp, hv]
    · by_cases hp : e.1.1 = p
      · rw [if_pos hp]
        cases hv : e.2 with
        | none => rfl
        | some id2 => exact ih _ hmr
      · rw [if_neg hp]
        exact ih _ hmr

end SetPriorityLemmas

end PluginLemmas

section Examples

/-- An example search plugin configuration used by the concrete witnesses. -/
def exPcX : PluginConfig := { type := "TypeX", priority := 0, products := [] }

/-- A second example search plugin configuration. -/
def exPcY : PluginConfig := { type := "TypeY", priority := 0, products := [] }

/-- Example provider A: priority 10, declares the optical product type. -/
def exProvA : ProviderConfig :=
  { name := "A", priority := some 10, products := ["optical"], group := none,
    search := some exPcX, api := none, download := none, auth := none }

/-- Example provider B: priority 5, declares optical and radar. -/
def exProvB : ProviderConfig :=
  { name := "B", priority := some 5, products := ["optical", "radar"], group := none,
    search := some exPcY, api := none, download := none, auth := none }

/-- The plugin class registry used by the witnesses. -/
def exRegistry : List (String × String) :=
  [("Search", "TypeX"), ("Search", "TypeY"), ("Api", "TypeZ"),
    ("Download", "TypeD"), ("Authentication", "TypeA")]

/-- The two-provider example store. -/
def exStore : Store := [("A", exProvA), ("B", exProvB)]

/-- The example manager state after construction. -/
def exSt : MgrState := initManager exRegistry exStore

end Examples

/-- C1: for a plugin manager state whose index entry for a product type
contains providers p1 and p2, p1 with strictly greater stored priority,
a successful `get_search_plugins` run for that product type yields p1's
plugin strictly before p2's plugin — the yielded sequence is ordered by
descending provider priority (line 225 sorts the selected configs by
priority, descending). -/
theorem get_search_plugins_priority_order
    (st st' : MgrState) (pt p1 p2 : String) (cs : List String)
    (res : List (String × Nat))
    (hidx : dget st.productTypeMap pt = some cs)
    (hp1 : p1 ∈ cs) (hp2 : p2 ∈ cs)
    (hgt : storePriority st.providersConfig p1 > storePriority st.providersConfig p2)
    (hrun : get_search_plugins st (some pt) none = (st', Except.ok res)) :
    firstIdx (res.map Prod.fst) p1 < firstIdx (res.map Prod.fst) p2 := by
  have hne : cs ≠ [] := by
    intro hc
    rw [hc] at hp1
    cases hp1
  have hsel := selectSearchConfigs_of_entry hidx hne
  rw [get_search_plugins_run hsel] at hrun
  rw [runSearch_names hrun]
  exact sorted_firstIdx_lt _ (sortDesc_sorted _ _)
    ((mem_sortDesc _).2 hp1) ((mem_sortDesc _).2 hp2) hgt

/-- The result of the concrete C1 search run. -/
def exRunC1 : MgrState × Except MgrError (List (String × Nat)) :=
  get_search_plugins exSt (some "optical") none

/-- Witness for C1: in the concrete example, provider A (priority 10) is
yielded strictly before provider B (priority 5). -/
theorem get_search_plugins_priority_order_witness :
    firstIdx (([(("A" : String), (0 : Nat)), ("B", 1)]).map Prod.fst) "A" <
      firstIdx (([(("A" : String), (0 : Nat)), ("B", 1)]).map Prod.fst) "B" :=
  get_search_plugins_priority_order exSt exRunC1.1 "optical" "A" "B" ["A", "B"]
    [("A", 0), ("B", 1)] (by decide) (by decide) (by decide) (by decide) (by rfl)

/-- C4: once `_build_plugin` has successfully built and cached a plugin
instance for a (provider, topic) key, any subsequent call for the same key —
with any plugin configuration — returns the identical cached instance id and
leaves the whole manager state unchanged (lines 341-345: the cache hit path
returns the cached instance with no reconstruction and no side effect). -/
theorem build_plugin_at_most_once
    (st st1 : MgrState) (prov topic : String) (conf conf' : PluginConfig) (id : Nat)
    (h : buildPlugin st prov conf topic = (st1, Except.ok id)) :
    buildPlugin st1 prov conf' topic = (st1, Except.ok id) :=
  buildPlugin_hit conf' (buildPlugin_ok_cached h)

/-- The result of the concrete first build for C4. -/
def exBuildC4 : MgrState × Except MgrError Nat :=
  buildPlugin exSt "A" exPcX "Search"

/-- Witness for C4: rebuilding the same (provider, topic) key — even with a
different configuration — returns the same instance id 0 and the same state. -/
theorem build_plugin_at_most_once_witness :
    buildPlugin exBuildC4.1 "A" exPcY "Search" = (exBuildC4.1, Except.ok 0) :=
  build_plugin_at_most_once exSt exBuildC4.1 "A" "Search" exPcX exPcY 0 (by rfl)

/-- C2: for a manager state built from a store (with well-formed, duplicate-free
keys and product lists), a successful `get_search_plugins` run for a declared
product type yields, within every equal-priority class, the providers in their
registration (insertion) order in the store — the index-build and run-time
sorts are stable; and rebuilding the index from the already-normalized store is
a fixed point: it yields the same store, no skipped providers, and
entry-for-entry the same index, no matter how often it is repeated. -/
theorem search_order_stability
    (store0 store1 : Store) (idx : Index) (sk : List String)
    (st st' : MgrState) (pt : String) (res : List (String × Nat))
    (hnd : (store0.map Prod.fst).Nodup)
    (hprod : ∀ e ∈ store0, e.2.products.Nodup)
    (hb : buildProductTypeMap store0 = (store1, idx, sk))
    (hst1 : st.providersConfig = store1) (hst2 : st.productTypeMap = idx)
    (hne : providersFor store0 pt ≠ [])
    (hrun : get_search_plugins st (some pt) none = (st', Except.ok res)) :
    (∀ p : Int, (res.map Prod.fst).filter
        (fun n => decide (storePriority store1 n = p)) =
      (providersFor store0 pt).filter
        (fun n => decide (storePriority store1 n = p))) ∧
    (∃ idx2, buildProductTypeMap store1 = (store1, idx2, []) ∧
      ∀ q, dget idx2 q = dget idx q) := by
  obtain ⟨idxA, heqA, hdgA⟩ := buildProductTypeMap_spec store0 hnd hprod
  rw [hb, Prod.mk.injEq] at heqA
  obtain ⟨hs1, heqA2⟩ := heqA
  rw [Prod.mk.injEq] at heqA2
  obtain ⟨hidxA, hskA⟩ := heqA2
  subst hidxA
  have hentry : ∀ q, dget idx q =
      mergeEntry (storePriority store1) none (providersFor store0 q) := by
    intro q
    rw [hs1]
    exact hdgA q
  constructor
  · cases hL : providersFor store0 pt with
    | nil => exact absurd hL hne
    | cons c L2 =>
      have hidxpt : dget st.productTypeMap pt =
          some (sortDesc (storePriority store1) (c :: L2)) := by
        rw [hst2, hentry pt, hL, mergeEntry_none_cons]
      have hnil : sortDesc (storePriority store1) (c :: L2) ≠ [] := by
        intro hc
        cases (sortDesc_eq_nil_iff _).1 hc
      have hsel := selectSearchConfigs_of_entry hidxpt hnil
      rw [get_search_plugins_run hsel] at hrun
      have hnames := runSearch_names hrun
      intro p
      rw [hnames, hst1, filter_sortDesc, filter_sortDesc]
  · have hnd1 : (store1.map Prod.fst).Nodup := by
      rw [hs1]
      exact List.Nodup.sublist (normalizeStore_keys_sublist store0) hnd
    have hprod1 : ∀ e ∈ store1, e.2.products.Nodup := by
      rw [hs1]
      intro e he
      obtain ⟨c, hcmem, hcne, hce⟩ := mem_normalizeStore he
      rw [hce, normProvider_products]
      exact hprod _ hcmem
    obtain ⟨idxB, heqB, hdgB⟩ := buildProductTypeMap_spec store1 hnd1 hprod1
    refine ⟨idxB, ?_, ?_⟩
    · rw [heqB, hs1, normalizeStore_idem, skippedOf_normalizeStore]
    · intro q
      rw [hdgB q, hentry q, hs1, normalizeStore_idem, providersFor_normalizeStore]

/-- Example provider P: priority 5, optical, registered first. -/
def exProvP : ProviderConfig :=
  { name := "P", priority := some 5, products := ["optical"], group := none,
    search := some exPcX, api := none, download := none, auth := none }

/-- Example provider Q: the same priority 5, optical, registered second. -/
def exProvQ : ProviderConfig :=
  { name := "Q", priority := some 5, products := ["optical"], group := none,
    search := some exPcY, api := none, download := none, auth := none }

/-- Store with two equal-priority providers, P registered before Q. -/
def exStoreEq : Store := [("P", exProvP), ("Q", exProvQ)]

/-- Manager state over the equal-priority store. -/
def exStEq : MgrState := initManager exRegistry exStoreEq

/-- The result of the concrete C2 search run. -/
def exRunC2 : MgrState × Except MgrError (List (String × Nat)) :=
  get_search_plugins exStEq (some "optical") none

/-- Witness for C2: with equal priorities the yielded order P then Q matches
the registration order, and rebuilding from the normalized store is a fixed
point. -/
theorem search_order_stability_witness :
    (∀ p : Int, (([(("P" : String), (0 : Nat)), ("Q", 1)]).map Prod.fst).filter
        (fun n => decide (storePriority exStEq.providersConfig n = p)) =
      (providersFor exStoreEq "optical").filter
        (fun n => decide (storePriority exStEq.providersConfig n = p))) ∧
    (∃ idx2, buildProductTypeMap exStEq.providersConfig =
        (exStEq.providersConfig, idx2, []) ∧
      ∀ q, dget idx2 q = dget exStEq.productTypeMap q) :=
  search_order_stability exStoreEq exStEq.providersConfig exStEq.productTypeMap []
    exStEq exRunC2.1 "optical" [("P", 0), ("Q", 1)] (by decide) (by decide)
    (by rfl) (by rfl) (by rfl) (by decide) (by rfl)

/-- Store with a single provider that does not declare the generic product
type, so the index has no generic fallback entry. -/
def exStoreNoGen : Store := [("A", exProvA)]

/-- Manager state over the store without a generic fallback entry. -/
def exStNoGen : MgrState := initManager exRegistry exStoreNoGen

/-- Counterexample to C3 as stated: the generic fallback key is not created
unconditionally by the index build (lines 158-165 only create keys that some
provider declares), so `get_search_plugins` for an unknown product type fails
with a missing-key error (the bare dict access of line 209) instead of never
failing. -/
theorem search_generic_fallback_missing_key_cex :
    (get_search_plugins exStNoGen (some "unknown") none).2 =
      Except.error (MgrError.keyError GENERIC_PRODUCT_TYPE) := by rfl

/-- C3 (amended): for a product type absent from the index (or mapped to an
empty list), `get_search_plugins` falls back to the generic entry: when that
entry exists and is non-empty the run resolves exactly the fallback providers
(no error is raised at lookup); when the generic key is absent the lookup
itself fails with a missing-key error; and an unsupported-provider error is
raised only when the generic candidate list — after the optional provider
filter — is empty. -/
theorem search_generic_fallback_amended
    (st : MgrState) (pt : String) (gs : List String)
    (hmiss : dget st.productTypeMap pt = none ∨
      dget st.productTypeMap pt = some []) :
    ((dget st.productTypeMap GENERIC_PRODUCT_TYPE = some gs ∧ gs ≠ []) →
      get_search_plugins st (some pt) none =
        runSearch st (sortDesc (storePriority st.providersConfig) gs)) ∧
    (dget st.productTypeMap GENERIC_PRODUCT_TYPE = none →
      get_search_plugins st (some pt) none =
        (st, Except.error (MgrError.keyError GENERIC_PRODUCT_TYPE))) ∧
    (∀ prov st'' b,
      get_search_plugins st (some pt) prov =
        (st'', Except.error (MgrError.unsupportedProvider b)) →
      ∃ base, dget st.productTypeMap GENERIC_PRODUCT_TYPE = some base ∧
        (match prov with
          | some p => filterByProvider st p base
          | none => base) = []) := by
  refine ⟨?_, ?_, ?_⟩
  · rintro ⟨hg, hne⟩
    cases gs with
    | nil => exact absurd rfl hne
    | cons g gs2 =>
      have hsel : selectSearchConfigs st (some pt) none = Except.ok (g :: gs2) := by
        rcases hmiss with h | h <;> simp [selectSearchConfigs, h, hg]
      exact get_search_plugins_run hsel
  · intro hg
    have hsel : selectSearchConfigs st (some pt) none =
        Except.error (MgrError.keyError GENERIC_PRODUCT_TYPE) := by
      rcases hmiss with h | h <;> simp [selectSearchConfigs, h, hg]
    exact get_search_plugins_err hsel
  · intro prov st'' b herr
    cases prov with
    | none =>
      cases hg : dget st.productTypeMap GENERIC_PRODUCT_TYPE with
      | none =>
        have hsel : selectSearchConfigs st (some pt) none =
            Except.error (MgrError.keyError GENERIC_PRODUCT_TYPE) := by
          rcases hmiss with h | h <;> simp [selectSearchConfigs, h, hg]
        rw [get_search_plugins_err hsel, Prod.mk.injEq] at herr
        exact absurd herr.2 (by simp)
      | some base =>
        refine ⟨base, rfl, ?_⟩
        by_cases hfil : base = []
        · exact hfil
        · exfalso
          have hsel : selectSearchConfigs st (some pt) none = Except.ok base := by
            rcases hmiss with h | h <;> simp [selectSearchConfigs, h, hg, hfil]
          rw [get_search_plugins_run hsel] at herr
          rcases runSearch_error_shape herr with ⟨k, hk⟩ | ⟨s2, hs2⟩ | ⟨t, y, ht⟩
          · exact MgrError.noConfusion hk
          · exact MgrError.noConfusion hs2
          · exact MgrError.noConfusion ht
    | some p =>
      cases hg : dget st.productTypeMap GENERIC_PRODUCT_TYPE with
      | none =>
        have hsel : selectSearchConfigs st (some pt) (some p) =
            Except.error (MgrError.keyError GENERIC_PRODUCT_TYPE) := by
          rcases hmiss with h | h <;> simp [selectSearchConfigs, h, hg]
        rw [get_search_plugins_err hsel, Prod.mk.injEq] at herr
        exact absurd herr.2 (by simp)
      | some base =>
        refine ⟨base, rfl, ?_⟩
        by_cases hfil : filterByProvider st p base = []
        · exact hfil
        · exfalso
          have hsel : selectSearchConfigs st (some pt) (some p) =
              Except.ok (filterByProvider st p base) := by
            rcases hmiss with h | h <;> simp [selectSearchConfigs, h, hg, hfil]
          rw [get_search_plugins_run hsel] at herr
          rcases runSearch_error_shape herr with ⟨k, hk⟩ | ⟨s2, hs2⟩ | ⟨t, y, ht⟩
          · exact MgrError.noConfusion hk
          · exact MgrError.noConfusion hs2
          · exact MgrError.noConfusion ht

/-- Example provider declaring the generic fallback product type. -/
def exProvG : ProviderConfig :=
  { name := "G", priority := some 1, products := [GENERIC_PRODUCT_TYPE],
    group := none, search := some exPcX, api := none, download := none,
    auth := none }

/-- Manager state whose index has a generic fallback entry. -/
def exStGen : MgrState := initManager exRegistry [("A", exProvA), ("G", exProvG)]

/-- Witness for the amended C3 on a state with a generic fallback entry. -/
theorem search_generic_fallback_amended_witness :
    ((dget exStGen.productTypeMap GENERIC_PRODUCT_TYPE = some ["G"] ∧
        (["G"] : List String) ≠ []) →
      get_search_plugins exStGen (some "unknown") none =
        runSearch exStGen
          (sortDesc (storePriority exStGen.providersConfig) ["G"])) ∧
    (dget exStGen.productTypeMap GENERIC_PRODUCT_TYPE = none →
      get_search_plugins exStGen (some "unknown") none =
        (exStGen, Except.error (MgrError.keyError GENERIC_PRODUCT_TYPE))) ∧
    (∀ prov st'' b,
      get_search_plugins exStGen (some "unknown") prov =
        (st'', Except.error (MgrError.unsupportedProvider b)) →
      ∃ base, dget exStGen.productTypeMap GENERIC_PRODUCT_TYPE = some base ∧
        (match prov with
          | some p => filterByProvider exStGen p base
          | none => base) = []) :=
  search_generic_fallback_amended exStGen "unknown" ["G"] (by decide)

theorem set_priority_unfold (st : MgrState) (X : String) (newP : Int)
    (hin : st.productTypeMap.any (fun e => decide (X ∈ e.2)) = true) :
    set_priority st X newP =
      setPriorityCacheLoop X newP
        { st with
          providersConfig := dmodify st.providersConfig X
            (fun c => { c with priority := some newP }),
          productTypeMap := st.productTypeMap.map (fun e =>
            (e.1, sortDesc (storePriority (dmodify st.providersConfig X
              (fun c => { c with priority := some newP }))) e.2)) }
        st.cache := by
  rw [set_priority, hin]
  rfl

theorem set_priority_core (st stP st' : MgrState) (X : String) (newP : Int)
    (cX : ProviderConfig)
    (h : setPriorityCacheLoop X newP stP stP.cache = (st', Except.ok ()))
    (hPc : stP.cache = st.cache)
    (hPi : stP.instances = st.instances)
    (hPp : stP.providersConfig =
      dmodify st.providersConfig X (fun c => { c with priority := some newP }))
    (hPm : stP.productTypeMap = st.productTypeMap.map (fun e =>
      (e.1, sortDesc (storePriority stP.providersConfig) e.2)))
    (hX : dget st.providersConfig X = some cX) :
    st'.cache = st.cache ∧
    (∀ t id inst, dget st.cache (X, t) = some (some id) →
      dget st.instances id = some inst →
      dget st'.instances id = some { inst with priority := newP }) ∧
    (∀ id, (∀ t, ((X, t), some id) ∉ st.cache) →
      dget st'.instances id = dget st.instances id) ∧
    (∀ n, n ≠ X → dget st'.providersConfig n = dget st.providersConfig n) ∧
    storePriority st'.providersConfig X = newP ∧
    (∀ e ∈ st'.productTypeMap,
      e.2.Pairwise (fun a b =>
        storePriority st'.providersConfig a ≥ storePriority st'.providersConfig b)) := by
  have hf := setPriorityCacheLoop_fields X newP stP stP.cache
  rw [h] at hf
  obtain ⟨hc, hpc, hptm, _, _⟩ := hf
  refine ⟨?_, ?_, ?_, ?_, ?_, ?_⟩
  · rw [hc, hPc]
  · intro t id inst hcache hinst
    have hm : ((X, t), some id) ∈ stP.cache := by
      rw [hPc]
      exact dget_mem hcache
    have ht := setPriorityCacheLoop_touched X newP id stP st' stP.cache () t h hm
    rw [ht, hPi, hinst]
    rfl
  · intro id hno
    have ht := setPriorityCacheLoop_untouched X newP id stP st' stP.cache () h
      (fun t ht2 => hno t (hPc ▸ ht2))
    rw [ht, hPi]
  · intro n hn
    rw [hpc, hPp]
    exact dget_dmodify_ne _ _ _ _ hn
  · rw [hpc, hPp]
    simp [storePriority, dget_dmodify_self, hX, provPriority]
  · intro e he
    rw [hptm, hPm] at he
    obtain ⟨a, ha, rfl⟩ := List.mem_map.1 he
    rw [hpc]
    exact sortDesc_sorted _ _

/-- C5: after a successful `set_priority(X, newP)` (lines 296-318), the cache
mapping is unchanged (no instance is reconstructed); every instance that was
cached for provider X keeps its identity and has exactly its `priority` field
updated in place to newP; instances not cached under X are untouched; store
entries of other providers are untouched; provider X's stored priority — the
sort key of subsequent `get_search_plugins` runs — now reads newP; and every
index entry has been re-sorted to descending order under the new priorities. -/
theorem set_priority_frame_and_order
    (st st' : MgrState) (X : String) (newP : Int) (cX : ProviderConfig)
    (hX : dget st.providersConfig X = some cX)
    (hin : st.productTypeMap.any (fun e => decide (X ∈ e.2)) = true)
    (h : set_priority st X newP = (st', Except.ok ())) :
    st'.cache = st.cache ∧
    (∀ t id inst, dget st.cache (X, t) = some (some id) →
      dget st.instances id = some inst →
      dget st'.instances id = some { inst with priority := newP }) ∧
    (∀ id, (∀ t, ((X, t), some id) ∉ st.cache) →
      dget st'.instances id = dget st.instances id) ∧
    (∀ n, n ≠ X → dget st'.providersConfig n = dget st.providersConfig n) ∧
    storePriority st'.providersConfig X = newP ∧
    (∀ e ∈ st'.productTypeMap,
      e.2.Pairwise (fun a b =>
        storePriority st'.providersConfig a ≥ storePriority st'.providersConfig b)) := by
  rw [set_priority_unfold st X newP hin] at h
  exact set_priority_core st _ st' X newP cX h rfl rfl rfl rfl hX

/-- The manager state after the concrete search run, with two cached plugin
instances. -/
def exStC5 : MgrState := (get_search_plugins exSt (some "optical") none).1

/-- The state after raising provider B's priority to 20. -/
def exStC5After : MgrState := (set_priority exStC5 "B" 20).1

/-- Provider B's store record as it stands after the search run. -/
def exC5cB : ProviderConfig :=
  { name := "B", priority := some 5, products := ["optical", "radar"],
    group := none,
    search := some
      { type := "TypeY", priority := 5, products := ["optical", "radar"] },
    api := none, download := none, auth := none }

/-- Witness for C5 on the concrete example: `set_priority("B", 20)`. -/
theorem set_priority_frame_and_order_witness :
    exStC5After.cache = exStC5.cache ∧
    (∀ t id inst, dget exStC5.cache ("B", t) = some (some id) →
      dget exStC5.instances id = some inst →
      dget exStC5After.instances id = some { inst with priority := 20 }) ∧
    (∀ id, (∀ t, ((("B" : String), t), some id) ∉ exStC5.cache) →
      dget exStC5After.instances id = dget exStC5.instances id) ∧
    (∀ n, n ≠ "B" →
      dget exStC5After.providersConfig n = dget exStC5.providersConfig n) ∧
    storePriority exStC5After.providersConfig "B" = 20 ∧
    (∀ e ∈ exStC5After.productTypeMap,
      e.2.Pairwise (fun a b =>
        storePriority exStC5After.providersConfig a ≥
        storePriority exStC5After.providersConfig b)) :=
  set_priority_frame_and_order exStC5 exStC5After "B" 20 exC5cB (by rfl)
    (by decide) (by rfl)

/-- C6: `rebuild` (lines 131-139) resets the plugin cache to a fresh empty
dict, so resolving a (provider, topic) key that had resolved to some instance
before the rebuild constructs a new instance with a different identity, even
when the provider configuration content is unchanged (the instance heap is
monotone: ids are never reused). -/
theorem rebuild_clears_cache_new_identity
    (st st1 st3 : MgrState) (prov topic : String) (conf conf' : PluginConfig)
    (id id' : Nat) (cfg : Option Store)
    (hwf : ∀ k v, dget st.cache k = some (some v) → v < st.nextId)
    (h1 : buildPlugin st prov conf topic = (st1, Except.ok id))
    (h2 : buildPlugin (rebuild st1 cfg) prov conf' topic = (st3, Except.ok id')) :
    (rebuild st1 cfg).cache = [] ∧ id' ≠ id := by
  have hcache : (rebuild st1 cfg).cache = [] := rfl
  have hid : id < st1.nextId := buildPlugin_ok_bounds hwf h1
  have hnext : (rebuild st1 cfg).nextId = st1.nextId := rfl
  have hmiss : dget (rebuild st1 cfg).cache (prov, topic) = none := by
    rw [hcache]
    rfl
  have hid' : id' = (rebuild st1 cfg).nextId :=
    buildPlugin_fresh_id (Or.inl hmiss) h2
  refine ⟨hcache, ?_⟩
  rw [hid', hnext]
  omega

/-- The first concrete build for C6. -/
def exBuildC6a : MgrState × Except MgrError Nat :=
  buildPlugin exSt "A" exPcX "Search"

/-- The state after rebuilding (same configuration content). -/
def exStC6r : MgrState := rebuild exBuildC6a.1 none

/-- The concrete build after the rebuild for C6. -/
def exBuildC6b : MgrState × Except MgrError Nat :=
  buildPlugin exStC6r "A" exPcX "Search"

/-- Witness for C6: the rebuilt manager resolves a fresh instance id 1,
distinct from the pre-rebuild id 0. -/
theorem rebuild_clears_cache_new_identity_witness :
    (rebuild exBuildC6a.1 none).cache = [] ∧ (1 : Nat) ≠ 0 :=
  rebuild_clears_cache_new_identity exSt exBuildC6a.1 exBuildC6b.1 "A" "Search"
    exPcX exPcX 0 1 none
    (by intro k v hv; exact Option.noConfusion hv) (by rfl) (by rfl)

theorem buildPlugin_fresh_ok (st stB st' : MgrState) (prov topic : String)
    (conf : PluginConfig) (r : Except MgrError Nat)
    (h : buildPlugin stB prov conf topic = (st', r))
    (hBc : stB.cache = st.cache)
    (hBi : stB.instances = st.instances)
    (hBn : stB.nextId = st.nextId)
    (hBr : stB.registry = st.registry)
    (hmiss : dget st.cache (prov, topic) = none ∨
      dget st.cache (prov, topic) = some none)
    (hreg : (topic, conf.type) ∈ st.registry) :
    r = Except.ok st.nextId ∧
    dget st'.instances st.nextId =
      some { provider := prov, conf := conf, priority := conf.priority } := by
  rcases hmiss with hm | hm
  · rw [buildPlugin_cases_absent conf (by rw [hBc]; exact hm),
      if_pos (by rw [hBr]; exact hreg), Prod.mk.injEq] at h
    obtain ⟨hs, hr⟩ := h
    refine ⟨by rw [← hr, hBn], ?_⟩
    rw [← hs]
    show dget (dset stB.instances stB.nextId _) st.nextId = _
    rw [hBi, hBn]
    exact dget_dset_self _ _ _
  · rw [buildPlugin_cases_placeholder conf (by rw [hBc]; exact hm),
      if_pos (by rw [hBr]; exact hreg), Prod.mk.injEq] at h
    obtain ⟨hs, hr⟩ := h
    refine ⟨by rw [← hr, hBn], ?_⟩
    rw [← hs]
    show dget (dset stB.instances stB.nextId _) st.nextId = _
    rw [hBi, hBn]
    exact dget_dset_self _ _ _

/-- C7: `get_download_plugin` (lines 228-252) looks up the product's provider
config directly in the store (not through the index); with `download`
configured it builds exactly one plugin from the download sub-configuration
with the provider priority propagated onto it; otherwise with `api`
configured it builds from the api sub-configuration with both the provider
priority and products propagated; otherwise it raises a misconfiguration
error naming the provider. -/
theorem get_download_plugin_resolution
    (st st' : MgrState) (prov : String) (c : ProviderConfig)
    (r : Except MgrError Nat)
    (hc : dget st.providersConfig prov = some c)
    (hrun : get_download_plugin st prov = (st', r)) :
    (∀ d, c.download = some d →
      (dget st.cache (prov, "Download") = none ∨
        dget st.cache (prov, "Download") = some none) →
      ("Download", d.type) ∈ st.registry →
      r = Except.ok st.nextId ∧
      dget st'.instances st.nextId = some
        { provider := prov, conf := { d with priority := provPriority c },
          priority := provPriority c }) ∧
    (c.download = none → ∀ a, c.api = some a →
      (dget st.cache (prov, "Api") = none ∨
        dget st.cache (prov, "Api") = some none) →
      ("Api", a.type) ∈ st.registry →
      r = Except.ok st.nextId ∧
      dget st'.instances st.nextId = some
        { provider := prov,
          conf := { a with products := c.products, priority := provPriority c },
          priority := provPriority c }) ∧
    (c.download = none → c.api = none →
      st' = st ∧ r = Except.error (MgrError.misconfigured c.name)) := by
  refine ⟨?_, ?_, ?_⟩
  · intro d hd hmiss hreg
    simp only [get_download_plugin, hc, hd] at hrun
    exact buildPlugin_fresh_ok st _ st' prov "Download" _ r hrun rfl rfl rfl rfl
      hmiss hreg
  · intro hd a ha hmiss hreg
    simp only [get_download_plugin, hc, hd, ha] at hrun
    exact buildPlugin_fresh_ok st _ st' prov "Api" _ r hrun rfl rfl rfl rfl
      hmiss hreg
  · intro hd ha
    simp only [get_download_plugin, hc, hd, ha] at hrun
    rw [Prod.mk.injEq] at hrun
    exact ⟨hrun.1.symm, hrun.2.symm⟩

/-- An example api sub-configuration. -/
def exPcZ : PluginConfig := { type := "TypeZ", priority := 0, products := [] }

/-- A provider configured with only an api capability (no download). -/
def exProvD : ProviderConfig :=
  { name := "D", priority := some 3, products := ["optical"], group := none,
    search := none, api := some exPcZ, download := none, auth := none }

/-- Manager state over the api-only provider. -/
def exStD : MgrState := initManager exRegistry [("D", exProvD)]

/-- The concrete download-plugin resolution for C7. -/
def exRunC7 : MgrState × Except MgrError Nat := get_download_plugin exStD "D"

/-- Witness for C7: for a provider with only `api` configured, the download
plugin is built from the api configuration with priority and products
propagated. -/
theorem get_download_plugin_resolution_witness :
    (∀ d, exProvD.download = some d →
      (dget exStD.cache ("D", "Download") = none ∨
        dget exStD.cache ("D", "Download") = some none) →
      ("Download", d.type) ∈ exStD.registry →
      exRunC7.2 = Except.ok exStD.nextId ∧
      dget exRunC7.1.instances exStD.nextId = some
        { provider := "D", conf := { d with priority := provPriority exProvD },
          priority := provPriority exProvD }) ∧
    (exProvD.download = none → ∀ a, exProvD.api = some a →
      (dget exStD.cache ("D", "Api") = none ∨
        dget exStD.cache ("D", "Api") = some none) →
      ("Api", a.type) ∈ exStD.registry →
      exRunC7.2 = Except.ok exStD.nextId ∧
      dget exRunC7.1.instances exStD.nextId = some
        { provider := "D",
          conf :=
            { a with products := exProvD.products, priority := provPriority exProvD },
          priority := provPriority exProvD }) ∧
    (exProvD.download = none → exProvD.api = none →
      exRunC7.1 = exStD ∧
      exRunC7.2 = Except.error (MgrError.misconfigured exProvD.name)) :=
  get_download_plugin_resolution exStD exRunC7.1 "D" exProvD exRunC7.2
    (by rfl) (by rfl)

/-- C8: `get_auth_plugin` (lines 254-274) returns an explicit absence (`none`)
and raises no error for every provider present in the store with no `auth`
capability configured; when `auth` is configured it propagates the provider
priority onto the auth sub-configuration and resolves through the
cache/factory. -/
theorem get_auth_plugin_optional_absence
    (st : MgrState) (prov : String) (c : ProviderConfig)
    (hc : dget st.providersConfig prov = some c) :
    (c.auth = none → get_auth_plugin st prov = (st, Except.ok none)) ∧
    (∀ a, c.auth = some a →
      ∃ st2 r, get_auth_plugin st prov = (st2, Except.map some r) ∧
        buildPlugin
          { st with
            providersConfig := dset st.providersConfig prov
              { c with auth := some { a with priority := provPriority c } } }
          prov { a with priority := provPriority c } "Authentication" =
          (st2, r)) := by
  constructor
  · intro ha
    simp only [get_auth_plugin, hc, ha]
  · intro a ha
    simp only [get_auth_plugin, hc, ha]
    rcases hb : buildPlugin
        { st with
          providersConfig := dset st.providersConfig prov
            { c with auth := some { a with priority := provPriority c } } }
        prov { a with priority := provPriority c } "Authentication" with ⟨st2, r⟩
    refine ⟨st2, r, ?_, rfl⟩
    cases r with
    | ok id => rfl
    | error e => rfl

/-- Witness for C8: provider A has no `auth` capability, and the resolution
returns an explicit `none` with the state unchanged. -/
theorem get_auth_plugin_optional_absence_witness :
    (exProvA.auth = none → get_auth_plugin exSt "A" = (exSt, Except.ok none)) ∧
    (∀ a, exProvA.auth = some a →
      ∃ st2 r, get_auth_plugin exSt "A" = (st2, Except.map some r) ∧
        buildPlugin
          { exSt with
            providersConfig := dset exSt.providersConfig "A"
              { exProvA with
                auth := some { a with priority := provPriority exProvA } } }
          "A" { a with priority := provPriority exProvA } "Authentication" =
          (st2, r)) :=
  get_auth_plugin_optional_absence exSt "A" exProvA (by rfl)

/-- C9: the index build normalizes the store: every provider without products
is recorded as skipped and removed from the store; every surviving provider
with an unset priority has it set to 0 in place; consequently every provider
remaining in the store after a build has a non-empty product list and a set
priority. -/
theorem build_map_normalizes_store
    (store0 store1 : Store) (idx : Index) (sk : List String)
    (hnd : (store0.map Prod.fst).Nodup)
    (hprod : ∀ e ∈ store0, e.2.products.Nodup)
    (hb : buildProductTypeMap store0 = (store1, idx, sk)) :
    store1 = normalizeStore store0 ∧
    sk = skippedOf store0 ∧
    (∀ e ∈ store0, e.2.products = [] → e.1 ∈ sk ∧ dget store1 e.1 = none) ∧
    (∀ e ∈ store0, e.2.products ≠ [] → e.2.priority = none →
      dget store1 e.1 = some { e.2 with priority := some 0 }) ∧
    (∀ e ∈ store1, e.2.products ≠ [] ∧ e.2.priority.isSome = true) := by
  obtain ⟨idxA, heqA, hdgA⟩ := buildProductTypeMap_spec store0 hnd hprod
  rw [hb, Prod.mk.injEq] at heqA
  obtain ⟨hs1, h2⟩ := heqA
  rw [Prod.mk.injEq] at h2
  obtain ⟨hidx, hsk⟩ := h2
  refine ⟨hs1, hsk, ?_, ?_, ?_⟩
  · intro e he hp
    refine ⟨?_, ?_⟩
    · rw [hsk]
      exact mem_skippedOf he hp
    · rw [hs1, dget_normalizeStore hnd, dget_of_mem_nodup hnd he]
      simp [hp]
  · intro e he hpne hprio
    rw [hs1, dget_normalizeStore hnd, dget_of_mem_nodup hnd he]
    simp [normProvider, hpne, hprio]
  · intro e he
    rw [hs1] at he
    obtain ⟨c, hcm, hcp, hce⟩ := mem_normalizeStore he
    constructor
    · rw [hce, normProvider_products]
      exact hcp
    · rw [hce]
      exact normProvider_priority_isSome c

/-- A provider with no products at all (skipped at build time). -/
def exProvE : ProviderConfig :=
  { name := "E", priority := some 7, products := [], group := none,
    search := none, api := none, download := none, auth := none }

/-- A provider with products but no priority set. -/
def exProvN : ProviderConfig :=
  { name := "N", priority := none, products := ["radar"], group := none,
    search := some exPcX, api := none, download := none, auth := none }

/-- The store used by the C9 witness. -/
def exStoreC9 : Store := [("E", exProvE), ("N", exProvN)]

/-- The concrete build result for C9. -/
def exBuildC9 : Store × Index × List String := buildProductTypeMap exStoreC9

/-- Witness for C9: the product-less provider E is skipped and removed, and
N's unset priority is defaulted to 0. -/
theorem build_map_normalizes_store_witness :
    exBuildC9.1 = normalizeStore exStoreC9 ∧
    exBuildC9.2.2 = skippedOf exStoreC9 ∧
    (∀ e ∈ exStoreC9, e.2.products = [] →
      e.1 ∈ exBuildC9.2.2 ∧ dget exBuildC9.1 e.1 = none) ∧
    (∀ e ∈ exStoreC9, e.2.products ≠ [] → e.2.priority = none →
      dget exBuildC9.1 e.1 = some { e.2 with priority := some 0 }) ∧
    (∀ e ∈ exBuildC9.1, e.2.products ≠ [] ∧ e.2.priority.isSome = true) :=
  build_map_normalizes_store exStoreC9 exBuildC9.1 exBuildC9.2.1 exBuildC9.2.2
    (by decide) (by decide) (by rfl)

/-- C10 (implicit behavior): `_build_plugin` is not atomic on failure — it
first inserts the `None` placeholder under the (provider, topic) key via
`setdefault` (line 341), so when the plugin type name is not registered the
raised error leaves the placeholder in the cache; a subsequent `set_priority`
for that provider then iterates the cache keys and attempts to assign
`priority` on the `None` value, raising an `AttributeError` instead of
completing (lines 316-318). -/
theorem build_failure_placeholder_breaks_set_priority
    (st st1 : MgrState) (prov topic : String) (conf : PluginConfig)
    (r : Except MgrError Nat) (newP : Int)
    (hclean : dget st.cache (prov, topic) = none)
    (hreg : (topic, conf.type) ∉ st.registry)
    (h : buildPlugin st prov conf topic = (st1, r)) :
    r = Except.error (MgrError.unknownPluginType topic conf.type) ∧
    dget st1.cache (prov, topic) = some none ∧
    (set_priority st1 prov newP).2 = Except.error MgrError.attributeError := by
  rw [buildPlugin_cases_absent conf hclean, if_neg hreg, Prod.mk.injEq] at h
  obtain ⟨hs, hr⟩ := h
  refine ⟨hr.symm, ?_, ?_⟩
  · rw [← hs]
    exact dget_dset_self _ _ _
  · have hmem : ((prov, topic), (none : Option Nat)) ∈ st1.cache := by
      rw [← hs]
      exact dget_mem (dget_dset_self _ _ _)
    rw [set_priority]
    exact setPriorityCacheLoop_err prov newP topic _ _ hmem

/-- A plugin configuration naming an unregistered implementation type. -/
def exPcMissing : PluginConfig :=
  { type := "Missing", priority := 0, products := [] }

/-- The concrete failing build for C10. -/
def exBuildC10 : MgrState × Except MgrError Nat :=
  buildPlugin exSt "A" exPcMissing "Search"

/-- Witness for C10: the failed build leaves a `None` placeholder under
("A", "Search") and the subsequent `set_priority` raises instead of
completing. -/
theorem build_failure_placeholder_breaks_set_priority_witness :
    exBuildC10.2 = Except.error (MgrError.unknownPluginType "Search" "Missing") ∧
    dget exBuildC10.1.cache ("A", "Search") = some none ∧
    (set_priority exBuildC10.1 "A" 42).2 = Except.error MgrError.attributeError :=
  build_failure_placeholder_breaks_set_priority exSt exBuildC10.1 "A" "Search"
    exPcMissing exBuildC10.2 42 (by rfl) (by decide) (by rfl)

end Eodag
